import Mathlib

/-!
Verification of the usage report plugin
(`src/ralph_pricing/plugins/reports/usage.py`).

The plugin is a Django report plugin.  Dates are modelled as integers
(day ordinals), so Python's `(end - start).days` becomes integer
subtraction.  Python `Decimal` (and the numeric usage counts) are
modelled as rationals.  The inherited `BaseReportPlugin` methods
(`get_warehouses`, `_get_price_from_cost`, `_get_total_usage_in_period`,
`_get_usages_in_period_per_venture`) and the ORM query sets are external
to this file's source and are modelled as an abstract environment
`ReportEnv`; every theorem quantifies over it.
-/

/-- A cell of the nested report dictionary: the Python values are either
numbers (`int` / `Decimal`, modelled as `ℚ`) or the sentinel strings
produced by `_incomplete_price`. -/
inductive Val where
  | num (q : ℚ)
  | str (s : String)
deriving DecidableEq, Repr

/-- Python `cell += q` on a report cell.  In the plugin the left operand is
always numeric when `+=` runs (sentinel strings are only ever assigned,
never added to); the `.str` branch keeps the string unchanged and is
unreachable from the plugin's entry points. -/
def Val.addNum (x : Val) (q : ℚ) : Val :=
  match x with
  | .num a => .num (a + q)
  | .str s => .str s

/-- A row of the external `Warehouse` table. -/
structure Warehouse where
  id : Nat
  name : String
deriving DecidableEq, Repr

/-- A row of the external `UsagePrice` table: a price record valid over the
date range [`start`, `end`], with a real and a forecast price and an
optional warehouse foreign key (stored as the warehouse id). -/
structure UsagePrice where
  start : Int
  «end» : Int
  price : ℚ
  forecast_price : ℚ
  warehouse : Option Nat
deriving DecidableEq, Repr

/-- A row of the external `UsageType` table together with its
`usageprice_set` reverse relation (all price records of the type). -/
structure UsageType where
  id : Nat
  name : String
  by_warehouse : Bool
  by_cost : Bool
  usageprice_set : List UsagePrice
deriving DecidableEq, Repr

/-- One element of the list returned by `_get_usages_in_period_per_venture`:
a venture id together with its usage count in the queried period. -/
structure VentureUsage where
  pricing_venture : Nat
  usage : ℚ
deriving DecidableEq, Repr

/-- The external dependencies of the plugin, inherited from
`BaseReportPlugin` and backed by the database: their bodies are not part
of this file's source, so they are abstract parameters. -/
structure ReportEnv where
  get_warehouses : List Warehouse
  _get_price_from_cost : UsagePrice → Bool → Option Warehouse → ℚ
  _get_total_usage_in_period : Int → Int → UsageType → Option Warehouse → List Nat → ℚ
  _get_usages_in_period_per_venture : Int → Int → UsageType → Option Warehouse → List Nat → List VentureUsage

/-- The nested `defaultdict(lambda: defaultdict(int))` returned by
`_get_usages_per_warehouse`: a value function (venture id, then report
column identifier; absent cells read as the number `0`, as with
`defaultdict(int)`) together with the list of (venture, column) cells
that were actually assigned, in insertion order. -/
structure Report where
  val : Nat → String → Val
  keys : List (Nat × String)

/-- The freshly created empty `defaultdict`. -/
def Report.empty : Report :=
  { val := fun _ _ => Val.num 0, keys := [] }

/-- Python `result[v][k] = x` on the nested dictionary. -/
def Report.write (r : Report) (v : Nat) (k : String) (x : Val) : Report :=
  { val := fun v' k' => if v' = v ∧ k' = k then x else r.val v' k'
    keys := if (v, k) ∈ r.keys then r.keys else r.keys ++ [(v, k)] }

/-- The ORM filter `usageprice_set.filter(end__gte=start, start__lte=end)`:
price records overlapping the report range. -/
def overlap_filter (start «end» : Int) (ups : List UsagePrice) : List UsagePrice :=
  ups.filter (fun up => decide (start ≤ up.«end» ∧ up.start ≤ «end»))

/-- The ORM filter `.filter(warehouse=warehouse)`. -/
def warehouse_filter (w : Warehouse) (ups : List UsagePrice) : List UsagePrice :=
  ups.filter (fun up => up.warehouse == some w.id)

/-- Python `if warehouse:` guarding the warehouse filter in both loops. -/
def opt_warehouse_filter (warehouse : Option Warehouse) (ups : List UsagePrice) : List UsagePrice :=
  match warehouse with
  | some w => warehouse_filter w ups
  | none => ups

/-- The ORM `.order_by('start')`. -/
def order_by_start (ups : List UsagePrice) : List UsagePrice :=
  ups.insertionSort (fun a b => a.start ≤ b.start)

/-- The price records `_incomplete_price` iterates over: the overlap filter,
further restricted to the warehouse when `usage_type.by_warehouse and
warehouse` holds. -/
def price_records_for (usage_type : UsageType) (start «end» : Int)
    (warehouse : Option Warehouse) : List UsagePrice :=
  let usage_prices := overlap_filter start «end» usage_type.usageprice_set
  match usage_type.by_warehouse, warehouse with
  | true, some w => warehouse_filter w usage_prices
  | _, _ => usage_prices

/-- Source `UsageBasePlugin._incomplete_price`: compares the report's day count
with the total number of days the overlapping price records claim, and
returns the sentinel `'No price'`, `'Incomplete price'` or `None`
(`ugettext_lazy` is modelled as the identity on strings). -/
def _incomplete_price (usage_type : UsageType) (start «end» : Int)
    (warehouse : Option Warehouse) : Option String :=
  let total_days : Int := («end» - start) + 1
  let usage_prices := price_records_for usage_type start «end» warehouse
  let ut_days : Int := usage_prices.foldl
    (fun acc up => acc + ((min «end» up.«end» - max start up.start) + 1)) 0
  if ut_days = 0 then some "No price"
  else if ut_days ≠ total_days then some "Incomplete price"
  else none

/-- The warehouse passes both loops run over: `get_warehouses()` when
`usage_type.by_warehouse`, otherwise the single pass `[None]`. -/
def warehouses_considered (env : ReportEnv) (usage_type : UsageType) :
    List (Option Warehouse) :=
  if usage_type.by_warehouse then env.get_warehouses.map some else [none]

/-- One iteration of the warehouse loop of `_get_total_cost_by_warehouses`:
the final `(usage_in_warehouse, cost_in_warehouse)` pair.  The source's
query also repeats the redundant condition `type=usage_type`, which is a
no-op on `usageprice_set`. -/
def cost_pass (env : ReportEnv) (start «end» : Int) (ventures : List Nat)
    (usage_type : UsageType) (forecast : Bool) (warehouse : Option Warehouse) :
    ℚ × ℚ :=
  let usage_prices := order_by_start (opt_warehouse_filter warehouse
    (overlap_filter start «end» usage_type.usageprice_set))
  usage_prices.foldl
    (fun acc usage_price =>
      let price := if forecast then usage_price.forecast_price else usage_price.price
      let price := if usage_type.by_cost then
          env._get_price_from_cost usage_price forecast warehouse
        else price
      let up_start := max start usage_price.start
      let up_end := min «end» usage_price.«end»
      let total_usage := env._get_total_usage_in_period up_start up_end
        usage_type warehouse ventures
      (acc.1 + total_usage, acc.2 + total_usage * price))
    (0, 0)

/-- Source `UsageBasePlugin._get_total_cost_by_warehouses`: for every warehouse
pass it appends the usage and the cost, and when `by_warehouse` it
appends the grand total cost last. -/
def _get_total_cost_by_warehouses (env : ReportEnv) (start «end» : Int)
    (ventures : List Nat) (usage_type : UsageType) (forecast : Bool) : List ℚ :=
  let passes := (warehouses_considered env usage_type).map
    (cost_pass env start «end» ventures usage_type forecast)
  let result := passes.foldl (fun r p => r ++ [p.1, p.2]) []
  let total := passes.foldl (fun t p => t + p.2) 0
  if usage_type.by_warehouse then result ++ [total] else result

/-- Source `UsageBasePlugin.total_cost`, Python `costs_by_wh[-1]`.  The list is
never empty (`_get_total_cost_by_warehouses_ne_nil` below), so the
default of `getLastD` is immaterial. -/
def total_cost (env : ReportEnv) (start «end» : Int) (ventures : List Nat)
    (usage_type : UsageType) (forecast : Bool) : ℚ :=
  (_get_total_cost_by_warehouses env start «end» ventures usage_type forecast).getLastD 0

/-- Column identifier `'ut_{0}_count_wh_{1}'.format(usage_type.id, warehouse.id)`. -/
def count_key_wh (ut_id wh_id : Nat) : String :=
  "ut_" ++ Nat.repr ut_id ++ "_count_wh_" ++ Nat.repr wh_id

/-- Column identifier `'ut_{0}_cost_wh_{1}'.format(usage_type.id, warehouse.id)`. -/
def cost_key_wh (ut_id wh_id : Nat) : String :=
  "ut_" ++ Nat.repr ut_id ++ "_cost_wh_" ++ Nat.repr wh_id

/-- Column identifier `'ut_{0}_total_cost'.format(usage_type.id)`. -/
def total_cost_key (ut_id : Nat) : String :=
  "ut_" ++ Nat.repr ut_id ++ "_total_cost"

/-- Column identifier `'ut_{0}_count'.format(usage_type.id)`. -/
def count_key_simple (ut_id : Nat) : String :=
  "ut_" ++ Nat.repr ut_id ++ "_count"

/-- Column identifier `'ut_{0}_cost'.format(usage_type.id)`. -/
def cost_key_simple (ut_id : Nat) : String :=
  "ut_" ++ Nat.repr ut_id ++ "_cost"

/-- The `(count_key, cost_key, total_cost_key)` triple computed inside the
warehouse loop of `_get_usages_per_warehouse`.  In the `by_warehouse`
branch the source reads `warehouse.id`, and the loop only ever supplies
an actual warehouse there (`warehouses_considered` yields `some _` when
`by_warehouse`); the `true, none` case, an `AttributeError` in Python,
is given an arbitrary id.  In the other branch the source leaves
`total_cost_key` unbound and never reads it (the only read is guarded by
`by_warehouse`), so any value is faithful there. -/
def pass_keys (usage_type : UsageType) (warehouse : Option Warehouse) :
    String × String × String :=
  match usage_type.by_warehouse, warehouse with
  | true, some w =>
      (count_key_wh usage_type.id w.id, cost_key_wh usage_type.id w.id,
        total_cost_key usage_type.id)
  | true, none =>
      (count_key_wh usage_type.id 0, cost_key_wh usage_type.id 0,
        total_cost_key usage_type.id)
  | false, _ =>
      (count_key_simple usage_type.id, cost_key_simple usage_type.id,
        total_cost_key usage_type.id)

/-- The body of the `for v in usages_per_venture` loop inside
`add_usages_per_venture`: one count update, one cost update (an
assignment of the sentinel when the price is undefined, an addition
otherwise) and, for `by_warehouse` types with a defined price, one
total-cost update. -/
def add_one (usage_type : UsageType) (price_undefined : Option String)
    (count_key cost_key total_cost_key : String) (price : ℚ)
    (result : Report) (v : VentureUsage) : Report :=
  let venture := v.pricing_venture
  let result := result.write venture count_key
    (Val.addNum (result.val venture count_key) v.usage)
  let cost := v.usage * price
  let result :=
    match price_undefined with
    | some msg => result.write venture cost_key (Val.str msg)
    | none => result.write venture cost_key
        (Val.addNum (result.val venture cost_key) cost)
  if usage_type.by_warehouse = true ∧ price_undefined = none then
    result.write venture total_cost_key
      (Val.addNum (result.val venture total_cost_key) cost)
  else result

/-- The inner closure `add_usages_per_venture` of
`_get_usages_per_warehouse`: folds the per-venture usages of the period
into the nested dictionary. -/
def add_usages_per_venture (env : ReportEnv) (usage_type : UsageType)
    (warehouse : Option Warehouse) (ventures : List Nat)
    (price_undefined : Option String)
    (count_key cost_key total_cost_key : String)
    (up_start up_end : Int) (price : ℚ) (result : Report) : Report :=
  let usages_per_venture := env._get_usages_in_period_per_venture
    up_start up_end usage_type warehouse ventures
  usages_per_venture.foldl
    (add_one usage_type price_undefined count_key cost_key total_cost_key price)
    result

/-- The body of the `for usage_price in usage_prices` loop of
`_get_usages_per_warehouse`: selects the price to apply and folds the
clipped sub-period's per-venture usages into the dictionary. -/
def process_price (env : ReportEnv) (usage_type : UsageType) (start «end» : Int)
    (forecast : Bool) (ventures : List Nat) (price_undefined : Option String)
    (warehouse : Option Warehouse) (ks : String × String × String)
    (result : Report) (usage_price : UsagePrice) : Report :=
  let price := if forecast then usage_price.forecast_price else usage_price.price
  let price := if usage_type.by_cost then
      env._get_price_from_cost usage_price forecast warehouse
    else price
  let up_start := max start usage_price.start
  let up_end := min «end» usage_price.«end»
  add_usages_per_venture env usage_type warehouse ventures
    price_undefined ks.1 ks.2.1 ks.2.2 up_start up_end price result

/-- The rest of one iteration of the warehouse loop of
`_get_usages_per_warehouse`, after `price_undefined` has been computed:
the query, the key computation and the price-record loop. -/
def usage_pass_rest (env : ReportEnv) (usage_type : UsageType) (start «end» : Int)
    (forecast : Bool) (ventures : List Nat) (price_undefined : Option String)
    (warehouse : Option Warehouse) (result : Report) : Report :=
  let usage_prices := order_by_start (opt_warehouse_filter warehouse
    (overlap_filter start «end» usage_type.usageprice_set))
  let ks := pass_keys usage_type warehouse
  if usage_prices ≠ [] then
    usage_prices.foldl
      (process_price env usage_type start «end» forecast ventures
        price_undefined warehouse ks)
      result
  else
    add_usages_per_venture env usage_type warehouse ventures
      price_undefined ks.1 ks.2.1 ks.2.2 start «end» 0 result

/-- One iteration of the warehouse loop of `_get_usages_per_warehouse`.
`price_undefined = no_price_msg and self._incomplete_price(...)` is
`none` exactly when the Python value is falsy (`False` or `None`; the
sentinel strings are non-empty, hence truthy). -/
def usage_pass (env : ReportEnv) (usage_type : UsageType) (start «end» : Int)
    (forecast : Bool) (ventures : List Nat) (no_price_msg : Bool)
    (warehouse : Option Warehouse) (result : Report) : Report :=
  let price_undefined := if no_price_msg then
      _incomplete_price usage_type start «end» warehouse
    else none
  usage_pass_rest env usage_type start «end» forecast ventures price_undefined
    warehouse result

/-- Source `UsageBasePlugin._get_usages_per_warehouse`. -/
def _get_usages_per_warehouse (env : ReportEnv) (usage_type : UsageType)
    (start «end» : Int) (forecast : Bool) (ventures : List Nat)
    (no_price_msg : Bool) : Report :=
  (warehouses_considered env usage_type).foldl
    (fun result warehouse =>
      usage_pass env usage_type start «end» forecast ventures no_price_msg
        warehouse result)
    Report.empty

/-- Source `UsageBasePlugin.usages` (the `logger.debug` call has no effect on the
result). -/
def usages (env : ReportEnv) (start «end» : Int) (ventures : List Nat)
    (usage_type : UsageType) (forecast : Bool) (no_price_msg : Bool) : Report :=
  _get_usages_per_warehouse env usage_type start «end» forecast ventures
    no_price_msg

/-- One value of the mapping returned by `schema`: the human-readable
column name plus the optional `currency` and `total_cost` flags. -/
structure SchemaEntry where
  name : String
  currency : Bool := false
  total_cost : Bool := false
deriving DecidableEq, Repr

/-- Python `OrderedDict` assignment `d[k] = v`: replaces the value in place when
the key is present, otherwise appends the pair. -/
def od_set (d : List (String × SchemaEntry)) (k : String) (v : SchemaEntry) :
    List (String × SchemaEntry) :=
  if d.any (fun p => p.1 == k) then
    d.map (fun p => if p.1 == k then (k, v) else p)
  else d ++ [(k, v)]

/-- Source `UsageBasePlugin.schema`: the ordered report schema
(`'{0} count ({1})'.format(...)` etc. become string concatenations). -/
def schema (env : ReportEnv) (usage_type : UsageType) :
    List (String × SchemaEntry) :=
  if usage_type.by_warehouse then
    let s := env.get_warehouses.foldl
      (fun s warehouse =>
        let s := od_set s (count_key_wh usage_type.id warehouse.id)
          { name := usage_type.name ++ " count (" ++ warehouse.name ++ ")" }
        od_set s (cost_key_wh usage_type.id warehouse.id)
          { name := usage_type.name ++ " cost (" ++ warehouse.name ++ ")"
            currency := true })
      []
    od_set s (total_cost_key usage_type.id)
      { name := usage_type.name ++ " total cost"
        currency := true
        total_cost := true }
  else
    [(count_key_simple usage_type.id,
        { name := usage_type.name ++ " count" }),
      (cost_key_simple usage_type.id,
        { name := usage_type.name ++ " cost"
          currency := true
          total_cost := true })]

/-- The database tables the plugin can see, for the frame property: the
warehouse table and the usage-price table (each price row tagged with
the id of its usage type, as the `type` foreign key). -/
structure Db where
  warehouse_tab : List Warehouse
  usageprice_tab : List (Nat × UsagePrice)

/-- Read of the reverse relation `usage_type.usageprice_set` from the
store. -/
def db_usageprice_set (db : Db) (ut_id : Nat) : List UsagePrice :=
  (db.usageprice_tab.filter (fun r => r.1 == ut_id)).map Prod.snd

/-- Materialize a `UsageType` row whose `usageprice_set` is read from the
store. -/
def db_load_usage_type (db : Db) (ut_id : Nat) (name : String)
    (by_warehouse by_cost : Bool) : UsageType :=
  { id := ut_id, name := name, by_warehouse := by_warehouse
    by_cost := by_cost, usageprice_set := db_usageprice_set db ut_id }

/-- Build the plugin environment on top of the store: `get_warehouses()`
reads the warehouse table; the remaining inherited helpers stay
abstract. -/
def db_env (db : Db)
    (pfc : UsagePrice → Bool → Option Warehouse → ℚ)
    (tuip : Int → Int → UsageType → Option Warehouse → List Nat → ℚ)
    (uipv : Int → Int → UsageType → Option Warehouse → List Nat → List VentureUsage) :
    ReportEnv :=
  { get_warehouses := db.warehouse_tab
    _get_price_from_cost := pfc
    _get_total_usage_in_period := tuip
    _get_usages_in_period_per_venture := uipv }

/-- Store-threaded `usages`: every ORM operation of the source is a read
(`filter`, `order_by`, iteration, truthiness tests); the store is
threaded through and comes back with the result. -/
def usages_db (db : Db)
    (pfc : UsagePrice → Bool → Option Warehouse → ℚ)
    (tuip : Int → Int → UsageType → Option Warehouse → List Nat → ℚ)
    (uipv : Int → Int → UsageType → Option Warehouse → List Nat → List VentureUsage)
    (start «end» : Int) (ventures : List Nat) (ut_id : Nat) (name : String)
    (by_warehouse by_cost forecast no_price_msg : Bool) : Report × Db :=
  (usages (db_env db pfc tuip uipv) start «end» ventures
    (db_load_usage_type db ut_id name by_warehouse by_cost)
    forecast no_price_msg, db)

/-- Store-threaded `total_cost`. -/
def total_cost_db (db : Db)
    (pfc : UsagePrice → Bool → Option Warehouse → ℚ)
    (tuip : Int → Int → UsageType → Option Warehouse → List Nat → ℚ)
    (uipv : Int → Int → UsageType → Option Warehouse → List Nat → List VentureUsage)
    (start «end» : Int) (ventures : List Nat) (ut_id : Nat) (name : String)
    (by_warehouse by_cost forecast : Bool) : ℚ × Db :=
  (total_cost (db_env db pfc tuip uipv) start «end» ventures
    (db_load_usage_type db ut_id name by_warehouse by_cost) forecast, db)

/-- Store-threaded `schema`. -/
def schema_db (db : Db)
    (pfc : UsagePrice → Bool → Option Warehouse → ℚ)
    (tuip : Int → Int → UsageType → Option Warehouse → List Nat → ℚ)
    (uipv : Int → Int → UsageType → Option Warehouse → List Nat → List VentureUsage)
    (ut_id : Nat) (name : String) (by_warehouse by_cost : Bool) :
    List (String × SchemaEntry) × Db :=
  (schema (db_env db pfc tuip uipv)
    (db_load_usage_type db ut_id name by_warehouse by_cost), db)

/-! ## Specification-side definitions

These definitions follow the words of the claims (not the source); the
theorems below compare the source translation against them. -/

/-- Follows the claims' words: the price records of the usage type
overlapping the report range `[start, end]`, restricted to the pass's
warehouse when one is given. -/
def overlapping_records (usage_type : UsageType) (start «end» : Int)
    (warehouse : Option Warehouse) : List UsagePrice :=
  opt_warehouse_filter warehouse (overlap_filter start «end» usage_type.usageprice_set)

/-- Follows claim C7's words: the price applied to a price record is the
record's `forecast_price` when forecasting, its `price` otherwise, and
the value of `_get_price_from_cost` when the usage type is `by_cost`. -/
def applied_price (env : ReportEnv) (usage_type : UsageType) (forecast : Bool)
    (warehouse : Option Warehouse) (up : UsagePrice) : ℚ :=
  if usage_type.by_cost then env._get_price_from_cost up forecast warehouse
  else if forecast then up.forecast_price else up.price

/-- Follows the claims' words: the total usage of the clipped sub-period
`[max(start, record.start), min(end, record.end)]` of one record. -/
def clipped_usage (env : ReportEnv) (usage_type : UsageType)
    (start «end» : Int) (warehouse : Option Warehouse) (ventures : List Nat)
    (up : UsagePrice) : ℚ :=
  env._get_total_usage_in_period (max start up.start) (min «end» up.«end»)
    usage_type warehouse ventures

/-- Follows claim C1's words: the sum, over every price record of the
usage type overlapping the range, of `D(total_usage) * price` for the
clipped sub-period, within one warehouse pass. -/
def spec_cost_sum (env : ReportEnv) (start «end» : Int) (ventures : List Nat)
    (usage_type : UsageType) (forecast : Bool) (warehouse : Option Warehouse) : ℚ :=
  ((overlapping_records usage_type start «end» warehouse).map
    (fun up => clipped_usage env usage_type start «end» warehouse ventures up *
      applied_price env usage_type forecast warehouse up)).sum

/-- Follows claim C4's words: the summed usage of the clipped sub-periods
of the overlapping records, within one warehouse pass. -/
def spec_usage_sum (env : ReportEnv) (start «end» : Int) (ventures : List Nat)
    (usage_type : UsageType) (warehouse : Option Warehouse) : ℚ :=
  ((overlapping_records usage_type start «end» warehouse).map
    (clipped_usage env usage_type start «end» warehouse ventures)).sum

/-- Follows the claims' words: the usage a per-venture query result
attributes to one venture (dictionary aggregation sums the entries of
the same venture). -/
def venture_usage (venture : Nat) (l : List VentureUsage) : ℚ :=
  ((l.filter (fun x => x.pricing_venture == venture)).map VentureUsage.usage).sum

/-- Follows claim C2's words: a day is covered when some price record of
the usage type (restricted as in `_incomplete_price`) has it inside its
validity range. -/
def day_covered (usage_type : UsageType) (start «end» : Int)
    (warehouse : Option Warehouse) (d : Int) : Bool :=
  (price_records_for usage_type start «end» warehouse).any
    (fun up => decide (up.start ≤ d ∧ d ≤ up.«end»))

/-! ## Basic lemmas -/

lemma Val.addNum_addNum (x : Val) (a b : ℚ) :
    (x.addNum a).addNum b = x.addNum (a + b) := by
  cases x <;> simp [Val.addNum, add_assoc]

lemma Val.addNum_zero (x : Val) : x.addNum 0 = x := by
  cases x <;> simp [Val.addNum]

lemma Report.val_write_same (r : Report) (v : Nat) (k : String) (x : Val) :
    (r.write v k x).val v k = x := by
  simp [Report.write]

lemma Report.val_write_of_ne_key (r : Report) (v v' : Nat) (k k' : String)
    (x : Val) (h : k' ≠ k) : (r.write v k x).val v' k' = r.val v' k' := by
  simp [Report.write, h]

lemma Report.val_write_of_ne_venture (r : Report) (v v' : Nat) (k k' : String)
    (x : Val) (h : v' ≠ v) : (r.write v k x).val v' k' = r.val v' k' := by
  simp [Report.write, h]

lemma foldl_add_map_sum {α M : Type} [AddCommMonoid M] (f : α → M) :
    ∀ (l : List α) (a : M), l.foldl (fun x y => x + f y) a = a + (l.map f).sum
  | [], a => by simp
  | y :: l, a => by
    simp only [List.foldl_cons, List.map_cons, List.sum_cons]
    rw [foldl_add_map_sum f l (a + f y), add_assoc]

lemma foldl_pair_add {α : Type} (f g : α → ℚ) :
    ∀ (l : List α) (a b : ℚ),
      l.foldl (fun acc y => (acc.1 + f y, acc.2 + g y)) (a, b) =
        (a + (l.map f).sum, b + (l.map g).sum)
  | [], a, b => by simp
  | y :: l, a, b => by
    simp only [List.foldl_cons, List.map_cons, List.sum_cons]
    rw [foldl_pair_add f g l (a + f y) (b + g y)]
    simp [add_assoc]

lemma sum_map_order_by_start (f : UsagePrice → ℚ) (l : List UsagePrice) :
    ((order_by_start l).map f).sum = (l.map f).sum :=
  ((List.perm_insertionSort _ l).map f).sum_eq

lemma order_by_start_eq_nil_iff (l : List UsagePrice) :
    order_by_start l = [] ↔ l = [] := by
  constructor
  · intro h
    have := List.perm_insertionSort (fun a b => a.start ≤ b.start) l
    rw [order_by_start] at h
    rw [h] at this
    exact this.symm.eq_nil
  · intro h
    subst h
    simp [order_by_start]

/-! ## The cost side: `_get_total_cost_by_warehouses` -/

lemma spec_usage_sum_sorted (env : ReportEnv) (start «end» : Int)
    (ventures : List Nat) (usage_type : UsageType) (warehouse : Option Warehouse) :
    spec_usage_sum env start «end» ventures usage_type warehouse =
      ((order_by_start (opt_warehouse_filter warehouse
        (overlap_filter start «end» usage_type.usageprice_set))).map
        (clipped_usage env usage_type start «end» warehouse ventures)).sum := by
  rw [spec_usage_sum, overlapping_records, sum_map_order_by_start]

lemma spec_cost_sum_sorted (env : ReportEnv) (start «end» : Int)
    (ventures : List Nat) (usage_type : UsageType) (forecast : Bool)
    (warehouse : Option Warehouse) :
    spec_cost_sum env start «end» ventures usage_type forecast warehouse =
      ((order_by_start (opt_warehouse_filter warehouse
        (overlap_filter start «end» usage_type.usageprice_set))).map
        (fun up => clipped_usage env usage_type start «end» warehouse ventures up *
          applied_price env usage_type forecast warehouse up)).sum := by
  rw [spec_cost_sum, overlapping_records, sum_map_order_by_start]

lemma cost_pass_spec (env : ReportEnv) (start «end» : Int) (ventures : List Nat)
    (usage_type : UsageType) (forecast : Bool) (warehouse : Option Warehouse) :
    cost_pass env start «end» ventures usage_type forecast warehouse =
      (spec_usage_sum env start «end» ventures usage_type warehouse,
        spec_cost_sum env start «end» ventures usage_type forecast warehouse) := by
  have h := foldl_pair_add
    (fun up => clipped_usage env usage_type start «end» warehouse ventures up)
    (fun up => clipped_usage env usage_type start «end» warehouse ventures up *
      applied_price env usage_type forecast warehouse up)
    (order_by_start (opt_warehouse_filter warehouse
      (overlap_filter start «end» usage_type.usageprice_set))) 0 0
  simp only [clipped_usage, applied_price, zero_add] at h
  rw [cost_pass, h, spec_usage_sum_sorted, spec_cost_sum_sorted]
  rfl

lemma foldl_append_pairs :
    ∀ (l : List (ℚ × ℚ)) (a : List ℚ),
      l.foldl (fun r p => r ++ [p.1, p.2]) a =
        a ++ l.flatMap (fun p => [p.1, p.2])
  | [], a => by simp
  | p :: l, a => by
    simp only [List.foldl_cons, List.flatMap_cons]
    rw [foldl_append_pairs l (a ++ [p.1, p.2])]
    simp

lemma tcbw_spec (env : ReportEnv) (start «end» : Int) (ventures : List Nat)
    (usage_type : UsageType) (forecast : Bool) :
    _get_total_cost_by_warehouses env start «end» ventures usage_type forecast =
      (warehouses_considered env usage_type).flatMap
        (fun wh => [spec_usage_sum env start «end» ventures usage_type wh,
          spec_cost_sum env start «end» ventures usage_type forecast wh]) ++
      (if usage_type.by_warehouse then
        [((warehouses_considered env usage_type).map
          (fun wh => spec_cost_sum env start «end» ventures usage_type forecast wh)).sum]
      else []) := by
  rw [_get_total_cost_by_warehouses]
  have hmap : (warehouses_considered env usage_type).map
      (cost_pass env start «end» ventures usage_type forecast) =
      (warehouses_considered env usage_type).map
        (fun wh => (spec_usage_sum env start «end» ventures usage_type wh,
          spec_cost_sum env start «end» ventures usage_type forecast wh)) := by
    apply List.map_congr_left
    intro wh _
    exact cost_pass_spec env start «end» ventures usage_type forecast wh
  rw [hmap, foldl_append_pairs]
  have hsum : ∀ (l : List (Option Warehouse)),
      (l.map (fun wh => (spec_usage_sum env start «end» ventures usage_type wh,
        spec_cost_sum env start «end» ventures usage_type forecast wh))).foldl
        (fun t p => t + p.2) 0 =
      (l.map (fun wh => spec_cost_sum env start «end» ventures usage_type forecast wh)).sum := by
    intro l
    rw [foldl_add_map_sum Prod.snd, zero_add, List.map_map]
    rfl
  rw [hsum]
  by_cases hbw : usage_type.by_warehouse = true <;> simp [hbw, List.flatMap_map]

lemma tcbw_ne_nil (env : ReportEnv) (start «end» : Int) (ventures : List Nat)
    (usage_type : UsageType) (forecast : Bool) :
    _get_total_cost_by_warehouses env start «end» ventures usage_type forecast ≠ [] := by
  rw [tcbw_spec]
  by_cases hbw : usage_type.by_warehouse = true <;>
    simp [hbw, warehouses_considered]

/-- C1: for every usage type, report range, ventures set and forecast flag,
`total_cost` returns the sum, over every warehouse considered (all
warehouses from `get_warehouses()` when `by_warehouse`, otherwise a
single unfiltered pass) and over every price record of the usage type
overlapping the range, of `D(total_usage in the clipped sub-period) *
price`; and this is the last element of the list returned by
`_get_total_cost_by_warehouses` in both cases. -/
theorem total_cost_is_overlap_cost_sum (env : ReportEnv) (start «end» : Int)
    (ventures : List Nat) (usage_type : UsageType) (forecast : Bool) :
    total_cost env start «end» ventures usage_type forecast =
      ((warehouses_considered env usage_type).map
        (fun wh => spec_cost_sum env start «end» ventures usage_type forecast wh)).sum ∧
    total_cost env start «end» ventures usage_type forecast =
      (_get_total_cost_by_warehouses env start «end» ventures usage_type
        forecast).getLastD 0 := by
  refine ⟨?_, rfl⟩
  rw [total_cost, tcbw_spec]
  by_cases hbw : usage_type.by_warehouse = true
  · simp [hbw]
  · simp [hbw, warehouses_considered]

/-! ## The usage side: value lemmas for one loop-body step -/

lemma venture_usage_nil (venture : Nat) : venture_usage venture [] = 0 := rfl

lemma venture_usage_cons (venture : Nat) (x : VentureUsage) (l : List VentureUsage) :
    venture_usage venture (x :: l) =
      (if venture = x.pricing_venture then x.usage else 0) +
        venture_usage venture l := by
  by_cases hv : venture = x.pricing_venture
  · simp [venture_usage, hv]
  · have : ¬ (x.pricing_venture = venture) := fun h => hv h.symm
    simp [venture_usage, this, hv]

lemma add_one_val_count (usage_type : UsageType) (pu : Option String)
    (ck cok tk : String) (price : ℚ) (r : Report) (x : VentureUsage)
    (venture : Nat) (h1 : ck ≠ cok) (h2 : ck ≠ tk) :
    (add_one usage_type pu ck cok tk price r x).val venture ck =
      if venture = x.pricing_venture then
        Val.addNum (r.val venture ck) x.usage
      else r.val venture ck := by
  have h1' : ¬ (ck = cok) := h1
  have h2' : ¬ (ck = tk) := h2
  rcases pu with _ | msg <;>
    by_cases hv : venture = x.pricing_venture <;>
      by_cases hbw : usage_type.by_warehouse = true <;>
        simp [add_one, Report.write, hv, h1', h2', hbw]

lemma add_one_val_cost_some (usage_type : UsageType) (msg : String)
    (ck cok tk : String) (price : ℚ) (r : Report) (x : VentureUsage)
    (venture : Nat) (h1 : ck ≠ cok) :
    (add_one usage_type (some msg) ck cok tk price r x).val venture cok =
      if venture = x.pricing_venture then Val.str msg
      else r.val venture cok := by
  have h1' : ¬ (cok = ck) := fun h => h1 h.symm
  by_cases hv : venture = x.pricing_venture <;>
    simp [add_one, Report.write, hv, h1']

lemma add_one_val_cost_none (usage_type : UsageType)
    (ck cok tk : String) (price : ℚ) (r : Report) (x : VentureUsage)
    (venture : Nat) (h1 : ck ≠ cok) (h3 : cok ≠ tk) :
    (add_one usage_type none ck cok tk price r x).val venture cok =
      if venture = x.pricing_venture then
        Val.addNum (r.val venture cok) (x.usage * price)
      else r.val venture cok := by
  have h1' : ¬ (cok = ck) := fun h => h1 h.symm
  have h3' : ¬ (cok = tk) := h3
  by_cases hv : venture = x.pricing_venture <;>
    by_cases hbw : usage_type.by_warehouse = true <;>
      simp [add_one, Report.write, hv, h1', h3', hbw]

lemma add_one_val_total_some (usage_type : UsageType) (msg : String)
    (ck cok tk : String) (price : ℚ) (r : Report) (x : VentureUsage)
    (venture : Nat) (h2 : ck ≠ tk) (h3 : cok ≠ tk) :
    (add_one usage_type (some msg) ck cok tk price r x).val venture tk =
      r.val venture tk := by
  have h2' : ¬ (tk = ck) := fun h => h2 h.symm
  have h3' : ¬ (tk = cok) := fun h => h3 h.symm
  simp [add_one, Report.write, h2', h3']

lemma add_one_val_total_none (usage_type : UsageType)
    (ck cok tk : String) (price : ℚ) (r : Report) (x : VentureUsage)
    (venture : Nat) (h2 : ck ≠ tk) (h3 : cok ≠ tk) :
    (add_one usage_type none ck cok tk price r x).val venture tk =
      if usage_type.by_warehouse = true then
        (if venture = x.pricing_venture then
          Val.addNum (r.val venture tk) (x.usage * price)
        else r.val venture tk)
      else r.val venture tk := by
  have h2' : ¬ (tk = ck) := fun h => h2 h.symm
  have h3' : ¬ (tk = cok) := fun h => h3 h.symm
  by_cases hv : venture = x.pricing_venture <;>
    by_cases hbw : usage_type.by_warehouse = true <;>
      simp [add_one, Report.write, hv, h2', h3', hbw]

/-! ## Fold lemmas over one per-venture query result -/

lemma foldl_add_one_count (usage_type : UsageType) (pu : Option String)
    (ck cok tk : String) (price : ℚ) (h1 : ck ≠ cok) (h2 : ck ≠ tk) :
    ∀ (l : List VentureUsage) (r : Report) (venture : Nat),
      (l.foldl (add_one usage_type pu ck cok tk price) r).val venture ck =
        Val.addNum (r.val venture ck) (venture_usage venture l)
  | [], r, venture => by simp [venture_usage_nil, Val.addNum_zero]
  | x :: l, r, venture => by
    rw [List.foldl_cons,
      foldl_add_one_count usage_type pu ck cok tk price h1 h2 l _ venture,
      add_one_val_count usage_type pu ck cok tk price r x venture h1 h2,
      venture_usage_cons]
    by_cases hv : venture = x.pricing_venture
    · simp [hv, Val.addNum_addNum]
    · simp [hv]

lemma foldl_add_one_cost_some (usage_type : UsageType) (msg : String)
    (ck cok tk : String) (price : ℚ) (h1 : ck ≠ cok) :
    ∀ (l : List VentureUsage) (r : Report) (venture : Nat),
      (l.foldl (add_one usage_type (some msg) ck cok tk price) r).val venture cok =
        if l.any (fun x => x.pricing_venture == venture) then Val.str msg
        else r.val venture cok
  | [], r, venture => by simp
  | x :: l, r, venture => by
    rw [List.foldl_cons,
      foldl_add_one_cost_some usage_type msg ck cok tk price h1 l _ venture,
      add_one_val_cost_some usage_type msg ck cok tk price r x venture h1]
    by_cases ha : l.any (fun x => x.pricing_venture == venture) = true
    · simp [ha]
    · by_cases hv : venture = x.pricing_venture
      · simp [ha, hv]
      · have : ¬ (x.pricing_venture = venture) := fun h => hv h.symm
        simp [ha, hv, this]

lemma foldl_add_one_cost_none (usage_type : UsageType)
    (ck cok tk : String) (price : ℚ) (h1 : ck ≠ cok) (h3 : cok ≠ tk) :
    ∀ (l : List VentureUsage) (r : Report) (venture : Nat),
      (l.foldl (add_one usage_type none ck cok tk price) r).val venture cok =
        Val.addNum (r.val venture cok) (venture_usage venture l * price)
  | [], r, venture => by simp [venture_usage_nil, Val.addNum_zero]
  | x :: l, r, venture => by
    rw [List.foldl_cons,
      foldl_add_one_cost_none usage_type ck cok tk price h1 h3 l _ venture,
      add_one_val_cost_none usage_type ck cok tk price r x venture h1 h3,
      venture_usage_cons]
    by_cases hv : venture = x.pricing_venture
    · simp [hv, Val.addNum_addNum, add_mul]
    · simp [hv]

lemma foldl_add_one_total_some (usage_type : UsageType) (msg : String)
    (ck cok tk : String) (price : ℚ) (h2 : ck ≠ tk) (h3 : cok ≠ tk) :
    ∀ (l : List VentureUsage) (r : Report) (venture : Nat),
      (l.foldl (add_one usage_type (some msg) ck cok tk price) r).val venture tk =
        r.val venture tk
  | [], r, venture => by simp
  | x :: l, r, venture => by
    rw [List.foldl_cons,
      foldl_add_one_total_some usage_type msg ck cok tk price h2 h3 l _ venture,
      add_one_val_total_some usage_type msg ck cok tk price r x venture h2 h3]

lemma foldl_add_one_total_none (usage_type : UsageType)
    (ck cok tk : String) (price : ℚ) (h2 : ck ≠ tk) (h3 : cok ≠ tk) :
    ∀ (l : List VentureUsage) (r : Report) (venture : Nat),
      (l.foldl (add_one usage_type none ck cok tk price) r).val venture tk =
        if usage_type.by_warehouse = true then
          Val.addNum (r.val venture tk) (venture_usage venture l * price)
        else r.val venture tk
  | [], r, venture => by
    by_cases hbw : usage_type.by_warehouse = true <;>
      simp [hbw, venture_usage_nil, Val.addNum_zero]
  | x :: l, r, venture => by
    rw [List.foldl_cons,
      foldl_add_one_total_none usage_type ck cok tk price h2 h3 l _ venture,
      add_one_val_total_none usage_type ck cok tk price r x venture h2 h3]
    by_cases hbw : usage_type.by_warehouse = true
    · rw [venture_usage_cons]
      by_cases hv : venture = x.pricing_venture
      · simp [hbw, hv, Val.addNum_addNum, add_mul]
      · simp [hbw, hv]
    · simp [hbw]

/-! ## Distinctness and injectivity of the report column identifiers -/

lemma digitChar_val (k : Nat) (h : k < 10) : (Nat.digitChar k).toNat - 48 = k := by
  interval_cases k <;> rfl

lemma toDigitsCore_val :
    ∀ (fuel n : Nat) (acc : List Char), n < fuel →
      (Nat.toDigitsCore 10 fuel n acc).foldl (fun x c => 10 * x + (c.toNat - 48)) 0 =
        acc.foldl (fun x c => 10 * x + (c.toNat - 48)) n
  | 0, n, acc, h => absurd h (Nat.not_lt_zero n)
  | fuel + 1, n, acc, h => by
    rw [Nat.toDigitsCore]
    have hmod : n % 10 < 10 := Nat.mod_lt _ (by norm_num)
    by_cases hdiv : n / 10 = 0
    · simp only [hdiv, if_pos]
      rw [List.foldl_cons, digitChar_val _ hmod]
      have : 10 * 0 + n % 10 = n := by omega
      rw [this]
    · rw [if_neg hdiv]
      have hlt : n / 10 < fuel := by omega
      rw [toDigitsCore_val fuel (n / 10) _ hlt, List.foldl_cons,
        digitChar_val _ hmod]
      have : 10 * (n / 10) + n % 10 = n := by omega
      rw [this]

lemma repr_val (n : Nat) :
    (Nat.repr n).data.foldl (fun x c => 10 * x + (c.toNat - 48)) 0 = n := by
  have h := toDigitsCore_val (n + 1) n [] (Nat.lt_succ_self n)
  have hdata : (Nat.repr n).data = Nat.toDigitsCore 10 (n + 1) n [] := rfl
  rw [hdata, h]
  rfl

lemma repr_inj {m m' : Nat} (h : Nat.repr m = Nat.repr m') : m = m' := by
  have := repr_val m
  rw [h, repr_val m'] at this
  exact this.symm

lemma key_parts_inj {n : Nat} {s t : String} {u v : List Char}
    (h : ("ut_" ++ Nat.repr n ++ s).data ++ u = ("ut_" ++ Nat.repr n ++ t).data ++ v) :
    s.data ++ u = t.data ++ v := by
  simp only [String.data_append, List.append_assoc] at h
  exact List.append_cancel_left (List.append_cancel_left h)

lemma count_key_wh_ne_cost_key_wh (n m m' : Nat) :
    count_key_wh n m ≠ cost_key_wh n m' := by
  intro h
  have hd : (count_key_wh n m).data = (cost_key_wh n m').data := by rw [h]
  rw [count_key_wh, cost_key_wh, String.data_append, String.data_append] at hd
  have h2 := key_parts_inj hd
  have e1 : ("_count_wh_" : String).data = ['_','c','o','u','n','t','_','w','h','_'] := rfl
  have e2 : ("_cost_wh_" : String).data = ['_','c','o','s','t','_','w','h','_'] := rfl
  rw [e1, e2] at h2
  simp at h2

lemma count_key_wh_ne_total_cost_key (n m : Nat) :
    count_key_wh n m ≠ total_cost_key n := by
  intro h
  have hd : (count_key_wh n m).data = (total_cost_key n).data ++ [] := by rw [h, List.append_nil]
  rw [count_key_wh, total_cost_key, String.data_append] at hd
  have h2 := key_parts_inj hd
  have e1 : ("_count_wh_" : String).data = ['_','c','o','u','n','t','_','w','h','_'] := rfl
  have e2 : ("_total_cost" : String).data = ['_','t','o','t','a','l','_','c','o','s','t'] := rfl
  rw [e1, e2] at h2
  simp at h2

lemma cost_key_wh_ne_total_cost_key (n m : Nat) :
    cost_key_wh n m ≠ total_cost_key n := by
  intro h
  have hd : (cost_key_wh n m).data = (total_cost_key n).data ++ [] := by rw [h, List.append_nil]
  rw [cost_key_wh, total_cost_key, String.data_append] at hd
  have h2 := key_parts_inj hd
  have e1 : ("_cost_wh_" : String).data = ['_','c','o','s','t','_','w','h','_'] := rfl
  have e2 : ("_total_cost" : String).data = ['_','t','o','t','a','l','_','c','o','s','t'] := rfl
  rw [e1, e2] at h2
  simp at h2

lemma count_key_simple_ne_cost_key_simple (n : Nat) :
    count_key_simple n ≠ cost_key_simple n := by
  intro h
  have hd : (count_key_simple n).data ++ [] = (cost_key_simple n).data ++ [] := by rw [h]
  rw [count_key_simple, cost_key_simple] at hd
  have h2 := key_parts_inj hd
  have e1 : ("_count" : String).data = ['_','c','o','u','n','t'] := rfl
  have e2 : ("_cost" : String).data = ['_','c','o','s','t'] := rfl
  rw [e1, e2] at h2
  simp at h2

lemma count_key_simple_ne_total_cost_key (n : Nat) :
    count_key_simple n ≠ total_cost_key n := by
  intro h
  have hd : (count_key_simple n).data ++ [] = (total_cost_key n).data ++ [] := by rw [h]
  rw [count_key_simple, total_cost_key] at hd
  have h2 := key_parts_inj hd
  have e1 : ("_count" : String).data = ['_','c','o','u','n','t'] := rfl
  have e2 : ("_total_cost" : String).data = ['_','t','o','t','a','l','_','c','o','s','t'] := rfl
  rw [e1, e2] at h2
  simp at h2

lemma cost_key_simple_ne_total_cost_key (n : Nat) :
    cost_key_simple n ≠ total_cost_key n := by
  intro h
  have hd : (cost_key_simple n).data ++ [] = (total_cost_key n).data ++ [] := by rw [h]
  rw [cost_key_simple, total_cost_key] at hd
  have h2 := key_parts_inj hd
  have e1 : ("_cost" : String).data = ['_','c','o','s','t'] := rfl
  have e2 : ("_total_cost" : String).data = ['_','t','o','t','a','l','_','c','o','s','t'] := rfl
  rw [e1, e2] at h2
  simp at h2

lemma count_key_wh_inj (n : Nat) {m m' : Nat}
    (h : count_key_wh n m = count_key_wh n m') : m = m' := by
  have hd : (count_key_wh n m).data = (count_key_wh n m').data := by rw [h]
  rw [count_key_wh, count_key_wh, String.data_append, String.data_append] at hd
  have h2 := key_parts_inj hd
  have h3 := List.append_cancel_left h2
  exact repr_inj (congrArg (fun l => String.mk l) h3)

lemma cost_key_wh_inj (n : Nat) {m m' : Nat}
    (h : cost_key_wh n m = cost_key_wh n m') : m = m' := by
  have hd : (cost_key_wh n m).data = (cost_key_wh n m').data := by rw [h]
  rw [cost_key_wh, cost_key_wh, String.data_append, String.data_append] at hd
  have h2 := key_parts_inj hd
  have h3 := List.append_cancel_left h2
  exact repr_inj (congrArg (fun l => String.mk l) h3)

/-- The three column identifiers of one warehouse pass are pairwise
distinct (the source relies on this implicitly: three different
dictionary cells per venture). -/
lemma pass_keys_distinct (usage_type : UsageType) (warehouse : Option Warehouse) :
    (pass_keys usage_type warehouse).1 ≠ (pass_keys usage_type warehouse).2.1 ∧
    (pass_keys usage_type warehouse).1 ≠ (pass_keys usage_type warehouse).2.2 ∧
    (pass_keys usage_type warehouse).2.1 ≠ (pass_keys usage_type warehouse).2.2 := by
  rcases hbw : usage_type.by_warehouse with _ | _ <;> rcases warehouse with _ | w <;>
    simp [pass_keys, hbw, count_key_wh_ne_cost_key_wh, count_key_wh_ne_total_cost_key,
      cost_key_wh_ne_total_cost_key, count_key_simple_ne_cost_key_simple,
      count_key_simple_ne_total_cost_key, cost_key_simple_ne_total_cost_key]

/-! ## Pass-level characterizations of `_get_usages_per_warehouse` -/

lemma perm_any {α : Type} {l₁ l₂ : List α} (h : l₁.Perm l₂) (p : α → Bool) :
    l₁.any p = l₂.any p := by
  apply Bool.eq_iff_iff.mpr
  simp only [List.any_eq_true]
  constructor
  · rintro ⟨x, hx, hp⟩
    exact ⟨x, h.mem_iff.mp hx, hp⟩
  · rintro ⟨x, hx, hp⟩
    exact ⟨x, h.mem_iff.mpr hx, hp⟩

/-- Follows the claims' words: the usage the pass for one warehouse adds to
a venture's count cell, covering both branches of the source (a sum over
the overlapping records' clipped sub-periods, or the whole range when no
record overlaps). -/
def pass_venture_usage (env : ReportEnv) (usage_type : UsageType)
    (start «end» : Int) (warehouse : Option Warehouse) (ventures : List Nat)
    (venture : Nat) : ℚ :=
  if overlapping_records usage_type start «end» warehouse ≠ [] then
    ((overlapping_records usage_type start «end» warehouse).map
      (fun up => venture_usage venture (env._get_usages_in_period_per_venture
        (max start up.start) (min «end» up.«end») usage_type warehouse ventures))).sum
  else
    venture_usage venture (env._get_usages_in_period_per_venture start «end»
      usage_type warehouse ventures)

/-- Follows the claims' words: the cost the pass for one warehouse adds for
a venture when the price is defined (the no-record branch applies the
price `0`, so it contributes nothing). -/
def pass_venture_cost (env : ReportEnv) (usage_type : UsageType)
    (start «end» : Int) (forecast : Bool) (warehouse : Option Warehouse)
    (ventures : List Nat) (venture : Nat) : ℚ :=
  if overlapping_records usage_type start «end» warehouse ≠ [] then
    ((overlapping_records usage_type start «end» warehouse).map
      (fun up => venture_usage venture (env._get_usages_in_period_per_venture
        (max start up.start) (min «end» up.«end») usage_type warehouse ventures) *
        applied_price env usage_type forecast warehouse up)).sum
  else 0

/-- Follows claim C5's words: whether a venture has usage in the pass for
one warehouse (it appears in some per-venture query result the pass
folds in). -/
def pass_touched (env : ReportEnv) (usage_type : UsageType)
    (start «end» : Int) (warehouse : Option Warehouse) (ventures : List Nat)
    (venture : Nat) : Bool :=
  if overlapping_records usage_type start «end» warehouse ≠ [] then
    (overlapping_records usage_type start «end» warehouse).any
      (fun up => (env._get_usages_in_period_per_venture
        (max start up.start) (min «end» up.«end») usage_type warehouse ventures).any
        (fun x => x.pricing_venture == venture))
  else
    (env._get_usages_in_period_per_venture start «end» usage_type warehouse
      ventures).any (fun x => x.pricing_venture == venture)

lemma foldl_process_val_count (env : ReportEnv) (usage_type : UsageType)
    (start «end» : Int) (forecast : Bool) (ventures : List Nat)
    (pu : Option String) (warehouse : Option Warehouse) :
    ∀ (recs : List UsagePrice) (r : Report) (venture : Nat),
      ((recs.foldl (process_price env usage_type start «end» forecast ventures
        pu warehouse (pass_keys usage_type warehouse)) r).val venture
          (pass_keys usage_type warehouse).1) =
        Val.addNum (r.val venture (pass_keys usage_type warehouse).1)
          ((recs.map (fun up => venture_usage venture
            (env._get_usages_in_period_per_venture (max start up.start)
              (min «end» up.«end») usage_type warehouse ventures))).sum)
  | [], r, venture => by simp [Val.addNum_zero]
  | up :: recs, r, venture => by
    rw [List.foldl_cons,
      foldl_process_val_count env usage_type start «end» forecast ventures pu
        warehouse recs _ venture]
    simp only [process_price, add_usages_per_venture]
    rw [foldl_add_one_count usage_type pu _ _ _ _
      (pass_keys_distinct usage_type warehouse).1
      (pass_keys_distinct usage_type warehouse).2.1]
    rw [Val.addNum_addNum, List.map_cons, List.sum_cons]

lemma foldl_process_val_cost_some (env : ReportEnv) (usage_type : UsageType)
    (start «end» : Int) (forecast : Bool) (ventures : List Nat)
    (msg : String) (warehouse : Option Warehouse) :
    ∀ (recs : List UsagePrice) (r : Report) (venture : Nat),
      ((recs.foldl (process_price env usage_type start «end» forecast ventures
        (some msg) warehouse (pass_keys usage_type warehouse)) r).val venture
          (pass_keys usage_type warehouse).2.1) =
        if recs.any (fun up => (env._get_usages_in_period_per_venture
            (max start up.start) (min «end» up.«end») usage_type warehouse
            ventures).any (fun x => x.pricing_venture == venture)) then
          Val.str msg
        else r.val venture (pass_keys usage_type warehouse).2.1
  | [], r, venture => by simp
  | up :: recs, r, venture => by
    rw [List.foldl_cons,
      foldl_process_val_cost_some env usage_type start «end» forecast ventures
        msg warehouse recs _ venture]
    simp only [process_price, add_usages_per_venture]
    rw [foldl_add_one_cost_some usage_type msg _ _ _ _
      (pass_keys_distinct usage_type warehouse).1]
    by_cases ha : recs.any (fun up => (env._get_usages_in_period_per_venture
        (max start up.start) (min «end» up.«end») usage_type warehouse
        ventures).any (fun x => x.pricing_venture == venture)) = true
    · simp [ha]
    · simp only [List.any_cons]
      by_cases hup : (env._get_usages_in_period_per_venture (max start up.start)
          (min «end» up.«end») usage_type warehouse ventures).any
          (fun x => x.pricing_venture == venture) = true
      · simp [ha, hup]
      · simp [ha, hup]

lemma foldl_process_val_cost_none (env : ReportEnv) (usage_type : UsageType)
    (start «end» : Int) (forecast : Bool) (ventures : List Nat)
    (warehouse : Option Warehouse) :
    ∀ (recs : List UsagePrice) (r : Report) (venture : Nat),
      ((recs.foldl (process_price env usage_type start «end» forecast ventures
        none warehouse (pass_keys usage_type warehouse)) r).val venture
          (pass_keys usage_type warehouse).2.1) =
        Val.addNum (r.val venture (pass_keys usage_type warehouse).2.1)
          ((recs.map (fun up => venture_usage venture
            (env._get_usages_in_period_per_venture (max start up.start)
              (min «end» up.«end») usage_type warehouse ventures) *
            applied_price env usage_type forecast warehouse up)).sum)
  | [], r, venture => by simp [Val.addNum_zero]
  | up :: recs, r, venture => by
    rw [List.foldl_cons,
      foldl_process_val_cost_none env usage_type start «end» forecast ventures
        warehouse recs _ venture]
    simp only [process_price, add_usages_per_venture]
    rw [foldl_add_one_cost_none usage_type _ _ _ _
      (pass_keys_distinct usage_type warehouse).1
      (pass_keys_distinct usage_type warehouse).2.2]
    rw [Val.addNum_addNum, List.map_cons, List.sum_cons]
    rfl

lemma foldl_process_val_total_some (env : ReportEnv) (usage_type : UsageType)
    (start «end» : Int) (forecast : Bool) (ventures : List Nat)
    (msg : String) (warehouse : Option Warehouse) :
    ∀ (recs : List UsagePrice) (r : Report) (venture : Nat),
      ((recs.foldl (process_price env usage_type start «end» forecast ventures
        (some msg) warehouse (pass_keys usage_type warehouse)) r).val venture
          (pass_keys usage_type warehouse).2.2) =
        r.val venture (pass_keys usage_type warehouse).2.2
  | [], r, venture => by simp
  | up :: recs, r, venture => by
    rw [List.foldl_cons,
      foldl_process_val_total_some env usage_type start «end» forecast ventures
        msg warehouse recs _ venture]
    simp only [process_price, add_usages_per_venture]
    rw [foldl_add_one_total_some usage_type msg _ _ _ _
      (pass_keys_distinct usage_type warehouse).2.1
      (pass_keys_distinct usage_type warehouse).2.2]

lemma foldl_process_val_total_none (env : ReportEnv) (usage_type : UsageType)
    (start «end» : Int) (forecast : Bool) (ventures : List Nat)
    (warehouse : Option Warehouse) :
    ∀ (recs : List UsagePrice) (r : Report) (venture : Nat),
      ((recs.foldl (process_price env usage_type start «end» forecast ventures
        none warehouse (pass_keys usage_type warehouse)) r).val venture
          (pass_keys usage_type warehouse).2.2) =
        if usage_type.by_warehouse = true then
          Val.addNum (r.val venture (pass_keys usage_type warehouse).2.2)
            ((recs.map (fun up => venture_usage venture
              (env._get_usages_in_period_per_venture (max start up.start)
                (min «end» up.«end») usage_type warehouse ventures) *
              applied_price env usage_type forecast warehouse up)).sum)
        else r.val venture (pass_keys usage_type warehouse).2.2
  | [], r, venture => by
    by_cases hbw : usage_type.by_warehouse = true <;> simp [hbw, Val.addNum_zero]
  | up :: recs, r, venture => by
    rw [List.foldl_cons,
      foldl_process_val_total_none env usage_type start «end» forecast ventures
        warehouse recs _ venture]
    simp only [process_price, add_usages_per_venture]
    rw [foldl_add_one_total_none usage_type _ _ _ _
      (pass_keys_distinct usage_type warehouse).2.1
      (pass_keys_distinct usage_type warehouse).2.2]
    by_cases hbw : usage_type.by_warehouse = true
    · rw [if_pos hbw, if_pos hbw, if_pos hbw, Val.addNum_addNum,
        List.map_cons, List.sum_cons]
      rfl
    · rw [if_neg hbw, if_neg hbw, if_neg hbw]

lemma usage_pass_rest_val_count (env : ReportEnv) (usage_type : UsageType)
    (start «end» : Int) (forecast : Bool) (ventures : List Nat)
    (pu : Option String) (warehouse : Option Warehouse) (r : Report)
    (venture : Nat) :
    (usage_pass_rest env usage_type start «end» forecast ventures pu warehouse
      r).val venture (pass_keys usage_type warehouse).1 =
      Val.addNum (r.val venture (pass_keys usage_type warehouse).1)
        (pass_venture_usage env usage_type start «end» warehouse ventures venture) := by
  simp only [usage_pass_rest]
  by_cases h : order_by_start (opt_warehouse_filter warehouse
      (overlap_filter start «end» usage_type.usageprice_set)) = []
  · rw [if_neg (by simpa using h)]
    have hrec : overlapping_records usage_type start «end» warehouse = [] :=
      (order_by_start_eq_nil_iff _).mp h
    simp only [add_usages_per_venture]
    rw [foldl_add_one_count usage_type pu _ _ _ _
      (pass_keys_distinct usage_type warehouse).1
      (pass_keys_distinct usage_type warehouse).2.1]
    rw [pass_venture_usage, if_neg (by simp [hrec])]
  · rw [if_pos (by simpa using h)]
    rw [foldl_process_val_count]
    have hrec : overlapping_records usage_type start «end» warehouse ≠ [] := by
      intro hc
      exact h (by rw [order_by_start_eq_nil_iff]; exact hc)
    rw [pass_venture_usage, if_pos (by simp [hrec])]
    congr 1
    exact sum_map_order_by_start _ _

lemma usage_pass_rest_val_cost_some (env : ReportEnv) (usage_type : UsageType)
    (start «end» : Int) (forecast : Bool) (ventures : List Nat)
    (msg : String) (warehouse : Option Warehouse) (r : Report) (venture : Nat) :
    (usage_pass_rest env usage_type start «end» forecast ventures (some msg)
      warehouse r).val venture (pass_keys usage_type warehouse).2.1 =
      if pass_touched env usage_type start «end» warehouse ventures venture then
        Val.str msg
      else r.val venture (pass_keys usage_type warehouse).2.1 := by
  simp only [usage_pass_rest]
  by_cases h : order_by_start (opt_warehouse_filter warehouse
      (overlap_filter start «end» usage_type.usageprice_set)) = []
  · rw [if_neg (by simpa using h)]
    have hrec : overlapping_records usage_type start «end» warehouse = [] :=
      (order_by_start_eq_nil_iff _).mp h
    simp only [add_usages_per_venture]
    rw [foldl_add_one_cost_some usage_type msg _ _ _ _
      (pass_keys_distinct usage_type warehouse).1]
    rw [pass_touched]
    simp [hrec]
  · rw [if_pos (by simpa using h)]
    rw [foldl_process_val_cost_some]
    have hrec : overlapping_records usage_type start «end» warehouse ≠ [] := by
      intro hc
      exact h ((order_by_start_eq_nil_iff _).mpr hc)
    have hrec' : opt_warehouse_filter warehouse
        (overlap_filter start «end» usage_type.usageprice_set) ≠ [] := hrec
    have hany : (order_by_start (opt_warehouse_filter warehouse
        (overlap_filter start «end» usage_type.usageprice_set))).any
        (fun up => (env._get_usages_in_period_per_venture (max start up.start)
          (min «end» up.«end») usage_type warehouse ventures).any
          (fun x => x.pricing_venture == venture)) =
        (opt_warehouse_filter warehouse
          (overlap_filter start «end» usage_type.usageprice_set)).any
        (fun up => (env._get_usages_in_period_per_venture (max start up.start)
          (min «end» up.«end») usage_type warehouse ventures).any
          (fun x => x.pricing_venture == venture)) :=
      perm_any (List.perm_insertionSort _ _) _
    rw [hany, pass_touched]
    simp only [overlapping_records]
    rw [if_pos hrec']

lemma usage_pass_rest_val_cost_none (env : ReportEnv) (usage_type : UsageType)
    (start «end» : Int) (forecast : Bool) (ventures : List Nat)
    (warehouse : Option Warehouse) (r : Report) (venture : Nat) :
    (usage_pass_rest env usage_type start «end» forecast ventures none
      warehouse r).val venture (pass_keys usage_type warehouse).2.1 =
      Val.addNum (r.val venture (pass_keys usage_type warehouse).2.1)
        (pass_venture_cost env usage_type start «end» forecast warehouse
          ventures venture) := by
  simp only [usage_pass_rest]
  by_cases h : order_by_start (opt_warehouse_filter warehouse
      (overlap_filter start «end» usage_type.usageprice_set)) = []
  · rw [if_neg (by simpa using h)]
    have hrec : overlapping_records usage_type start «end» warehouse = [] :=
      (order_by_start_eq_nil_iff _).mp h
    simp only [add_usages_per_venture]
    rw [foldl_add_one_cost_none usage_type _ _ _ _
      (pass_keys_distinct usage_type warehouse).1
      (pass_keys_distinct usage_type warehouse).2.2]
    rw [pass_venture_cost, if_neg (by simp [hrec]), mul_zero]
  · rw [if_pos (by simpa using h)]
    rw [foldl_process_val_cost_none]
    have hrec : overlapping_records usage_type start «end» warehouse ≠ [] := by
      intro hc
      exact h (by rw [order_by_start_eq_nil_iff]; exact hc)
    rw [pass_venture_cost, if_pos (by simp [hrec])]
    congr 1
    exact sum_map_order_by_start _ _

lemma usage_pass_rest_val_total_some (env : ReportEnv) (usage_type : UsageType)
    (start «end» : Int) (forecast : Bool) (ventures : List Nat)
    (msg : String) (warehouse : Option Warehouse) (r : Report) (venture : Nat) :
    (usage_pass_rest env usage_type start «end» forecast ventures (some msg)
      warehouse r).val venture (pass_keys usage_type warehouse).2.2 =
      r.val venture (pass_keys usage_type warehouse).2.2 := by
  simp only [usage_pass_rest]
  by_cases h : order_by_start (opt_warehouse_filter warehouse
      (overlap_filter start «end» usage_type.usageprice_set)) = []
  · rw [if_neg (by simpa using h)]
    simp only [add_usages_per_venture]
    rw [foldl_add_one_total_some usage_type msg _ _ _ _
      (pass_keys_distinct usage_type warehouse).2.1
      (pass_keys_distinct usage_type warehouse).2.2]
  · rw [if_pos (by simpa using h)]
    rw [foldl_process_val_total_some]

lemma usage_pass_rest_val_total_none (env : ReportEnv) (usage_type : UsageType)
    (start «end» : Int) (forecast : Bool) (ventures : List Nat)
    (warehouse : Option Warehouse) (r : Report) (venture : Nat) :
    (usage_pass_rest env usage_type start «end» forecast ventures none
      warehouse r).val venture (pass_keys usage_type warehouse).2.2 =
      if usage_type.by_warehouse = true then
        Val.addNum (r.val venture (pass_keys usage_type warehouse).2.2)
          (pass_venture_cost env usage_type start «end» forecast warehouse
            ventures venture)
      else r.val venture (pass_keys usage_type warehouse).2.2 := by
  simp only [usage_pass_rest]
  by_cases h : order_by_start (opt_warehouse_filter warehouse
      (overlap_filter start «end» usage_type.usageprice_set)) = []
  · rw [if_neg (by simpa using h)]
    have hrec : overlapping_records usage_type start «end» warehouse = [] :=
      (order_by_start_eq_nil_iff _).mp h
    simp only [add_usages_per_venture]
    rw [foldl_add_one_total_none usage_type _ _ _ _
      (pass_keys_distinct usage_type warehouse).2.1
      (pass_keys_distinct usage_type warehouse).2.2]
    rw [pass_venture_cost]
    simp [hrec]
  · rw [if_pos (by simpa using h)]
    rw [foldl_process_val_total_none]
    have hrec : overlapping_records usage_type start «end» warehouse ≠ [] := by
      intro hc
      exact h ((order_by_start_eq_nil_iff _).mpr hc)
    have hrec' : opt_warehouse_filter warehouse
        (overlap_filter start «end» usage_type.usageprice_set) ≠ [] := hrec
    rw [pass_venture_cost]
    by_cases hbw : usage_type.by_warehouse = true
    · rw [if_pos hbw, if_pos hbw]
      congr 1
      simp only [overlapping_records]
      rw [if_pos hrec']
      exact sum_map_order_by_start _ _
    · rw [if_neg hbw, if_neg hbw]

/-! ## Concrete fixtures used by the witnesses -/

/-- A concrete warehouse for witness instances. -/
def wh_w : Warehouse := { id := 2, name := "wh-w" }

/-- A concrete price record for witness instances. -/
def up_w : UsagePrice :=
  { start := 0, «end» := 9, price := 3, forecast_price := 4, warehouse := some 2 }

/-- A concrete non-`by_warehouse` usage type with one price record. -/
def ut_w : UsageType :=
  { id := 5, name := "cpu", by_warehouse := false, by_cost := false
    usageprice_set := [up_w] }

/-- A concrete usage type with no price records at all. -/
def ut_nop : UsageType :=
  { id := 6, name := "ram", by_warehouse := false, by_cost := false
    usageprice_set := [] }

/-- A concrete environment for witness instances. -/
def env_w : ReportEnv :=
  { get_warehouses := [wh_w]
    _get_price_from_cost := fun _ _ _ => 0
    _get_total_usage_in_period := fun _ _ _ _ _ => 6
    _get_usages_in_period_per_venture := fun _ _ _ _ _ =>
      [{ pricing_venture := 7, usage := 2 }] }

/-! ## Claim C4 -/

/-- C4: in both `usages` and `total_cost` only price records overlapping the
report range are considered (`record.start <= end and record.end >=
start`), each such record contributes usage and cost over the clipped
sub-period `[max(start, record.start), min(end, record.end)]`, and
contributions from distinct overlapping records are summed per venture
(count cells) and per warehouse (cost list entries) by dictionary
aggregation. -/
theorem overlap_clip_aggregation (env : ReportEnv) (start «end» : Int)
    (ventures : List Nat) (usage_type : UsageType) (forecast no_price_msg : Bool)
    (warehouse : Option Warehouse) (r : Report) (venture : Nat)
    (hrec : overlapping_records usage_type start «end» warehouse ≠ []) :
    _get_total_cost_by_warehouses env start «end» ventures usage_type forecast =
      (warehouses_considered env usage_type).flatMap
        (fun wh => [spec_usage_sum env start «end» ventures usage_type wh,
          spec_cost_sum env start «end» ventures usage_type forecast wh]) ++
      (if usage_type.by_warehouse then
        [((warehouses_considered env usage_type).map
          (fun wh => spec_cost_sum env start «end» ventures usage_type forecast wh)).sum]
      else []) ∧
    (usage_pass env usage_type start «end» forecast ventures no_price_msg
      warehouse r).val venture (pass_keys usage_type warehouse).1 =
      Val.addNum (r.val venture (pass_keys usage_type warehouse).1)
        (((overlapping_records usage_type start «end» warehouse).map
          (fun up => venture_usage venture (env._get_usages_in_period_per_venture
            (max start up.start) (min «end» up.«end») usage_type warehouse
            ventures))).sum) := by
  refine ⟨tcbw_spec env start «end» ventures usage_type forecast, ?_⟩
  rw [usage_pass, usage_pass_rest_val_count]
  rw [pass_venture_usage, if_pos (by simp [hrec])]

/-- Witness for C4 at a concrete input. -/
theorem overlap_clip_aggregation_witness :
    overlapping_records ut_w 0 9 none ≠ [] ∧
    (_get_total_cost_by_warehouses env_w 0 9 [1] ut_w false =
      (warehouses_considered env_w ut_w).flatMap
        (fun wh => [spec_usage_sum env_w 0 9 [1] ut_w wh,
          spec_cost_sum env_w 0 9 [1] ut_w false wh]) ++
      (if ut_w.by_warehouse then
        [((warehouses_considered env_w ut_w).map
          (fun wh => spec_cost_sum env_w 0 9 [1] ut_w false wh)).sum]
      else []) ∧
    (usage_pass env_w ut_w 0 9 false [1] false none Report.empty).val 7
        (pass_keys ut_w none).1 =
      Val.addNum (Report.empty.val 7 (pass_keys ut_w none).1)
        (((overlapping_records ut_w 0 9 none).map
          (fun up => venture_usage 7 (env_w._get_usages_in_period_per_venture
            (max 0 up.start) (min 9 up.«end») ut_w none [1]))).sum)) :=
  ⟨by decide,
    overlap_clip_aggregation env_w 0 9 [1] ut_w false false none Report.empty 7
      (by decide)⟩

/-! ## Claim C5 -/

/-- C5: when `usages` runs with `no_price_msg=True` and the price for a
warehouse pass is undefined or incomplete, every venture with usage in
that pass gets the sentinel message assigned to its cost cell
(overwriting, not adding to, whatever the cell held), the count cell
still accumulates the numeric usage, and the per-venture total-cost cell
receives no contribution from that pass. -/
theorem undefined_price_pass (env : ReportEnv) (usage_type : UsageType)
    (start «end» : Int) (forecast : Bool) (ventures : List Nat)
    (warehouse : Option Warehouse) (r : Report) (venture : Nat) (msg : String)
    (hmsg : _incomplete_price usage_type start «end» warehouse = some msg) :
    ((usage_pass env usage_type start «end» forecast ventures true warehouse
      r).val venture (pass_keys usage_type warehouse).2.1 =
      if pass_touched env usage_type start «end» warehouse ventures venture then
        Val.str msg
      else r.val venture (pass_keys usage_type warehouse).2.1) ∧
    ((usage_pass env usage_type start «end» forecast ventures true warehouse
      r).val venture (pass_keys usage_type warehouse).1 =
      Val.addNum (r.val venture (pass_keys usage_type warehouse).1)
        (pass_venture_usage env usage_type start «end» warehouse ventures
          venture)) ∧
    ((usage_pass env usage_type start «end» forecast ventures true warehouse
      r).val venture (pass_keys usage_type warehouse).2.2 =
      r.val venture (pass_keys usage_type warehouse).2.2) := by
  have hpass : usage_pass env usage_type start «end» forecast ventures true
      warehouse r = usage_pass_rest env usage_type start «end» forecast
      ventures (some msg) warehouse r := by
    rw [usage_pass, if_pos rfl, hmsg]
  rw [hpass]
  exact ⟨usage_pass_rest_val_cost_some env usage_type start «end» forecast
      ventures msg warehouse r venture,
    usage_pass_rest_val_count env usage_type start «end» forecast ventures
      (some msg) warehouse r venture,
    usage_pass_rest_val_total_some env usage_type start «end» forecast
      ventures msg warehouse r venture⟩

/-- Witness for C5 at a concrete input. -/
theorem undefined_price_pass_witness :
    _incomplete_price ut_nop 0 1 none = some "No price" ∧
    (((usage_pass env_w ut_nop 0 1 false [1] true none Report.empty).val 7
        (pass_keys ut_nop none).2.1 =
      if pass_touched env_w ut_nop 0 1 none [1] 7 then Val.str "No price"
      else Report.empty.val 7 (pass_keys ut_nop none).2.1) ∧
    ((usage_pass env_w ut_nop 0 1 false [1] true none Report.empty).val 7
        (pass_keys ut_nop none).1 =
      Val.addNum (Report.empty.val 7 (pass_keys ut_nop none).1)
        (pass_venture_usage env_w ut_nop 0 1 none [1] 7)) ∧
    ((usage_pass env_w ut_nop 0 1 false [1] true none Report.empty).val 7
        (pass_keys ut_nop none).2.2 =
      Report.empty.val 7 (pass_keys ut_nop none).2.2)) :=
  ⟨by decide,
    undefined_price_pass env_w ut_nop 0 1 false [1] none Report.empty 7
      "No price" (by decide)⟩

/-! ## Claim C7 -/

/-- C7: for every price record processed by `usages` or `total_cost`, the
price applied to its clipped sub-period is the record's
`forecast_price` when forecasting and its `price` otherwise, except for
`by_cost` usage types, where the applied price is the value of
`_get_price_from_cost` for the record, the forecast flag and the current
warehouse (`applied_price` states exactly this selection). -/
theorem price_selection (env : ReportEnv) (start «end» : Int)
    (ventures : List Nat) (usage_type : UsageType) (forecast : Bool)
    (warehouse : Option Warehouse) (r : Report) (venture : Nat)
    (hrec : overlapping_records usage_type start «end» warehouse ≠ []) :
    cost_pass env start «end» ventures usage_type forecast warehouse =
      (spec_usage_sum env start «end» ventures usage_type warehouse,
        spec_cost_sum env start «end» ventures usage_type forecast warehouse) ∧
    (usage_pass env usage_type start «end» forecast ventures false warehouse
      r).val venture (pass_keys usage_type warehouse).2.1 =
      Val.addNum (r.val venture (pass_keys usage_type warehouse).2.1)
        (((overlapping_records usage_type start «end» warehouse).map
          (fun up => venture_usage venture (env._get_usages_in_period_per_venture
            (max start up.start) (min «end» up.«end») usage_type warehouse
            ventures) * applied_price env usage_type forecast warehouse
            up)).sum) := by
  refine ⟨cost_pass_spec env start «end» ventures usage_type forecast warehouse, ?_⟩
  have hpass : usage_pass env usage_type start «end» forecast ventures false
      warehouse r = usage_pass_rest env usage_type start «end» forecast
      ventures none warehouse r := by
    rw [usage_pass, if_neg (by simp)]
  rw [hpass, usage_pass_rest_val_cost_none]
  rw [pass_venture_cost, if_pos (by simp [hrec])]

/-- Witness for C7 at a concrete input. -/
theorem price_selection_witness :
    overlapping_records ut_w 0 9 none ≠ [] ∧
    (cost_pass env_w 0 9 [1] ut_w false none =
      (spec_usage_sum env_w 0 9 [1] ut_w none,
        spec_cost_sum env_w 0 9 [1] ut_w false none) ∧
    (usage_pass env_w ut_w 0 9 false [1] false none Report.empty).val 7
        (pass_keys ut_w none).2.1 =
      Val.addNum (Report.empty.val 7 (pass_keys ut_w none).2.1)
        (((overlapping_records ut_w 0 9 none).map
          (fun up => venture_usage 7 (env_w._get_usages_in_period_per_venture
            (max 0 up.start) (min 9 up.«end») ut_w none [1]) *
            applied_price env_w ut_w false none up)).sum)) :=
  ⟨by decide,
    price_selection env_w 0 9 [1] ut_w false none Report.empty 7 (by decide)⟩

/-! ## Claim C3: numeric cells when `no_price_msg` is off -/

/-- Every cell of the report reads as a number. -/
def Report.numeric (r : Report) : Prop :=
  ∀ (venture : Nat) (key : String), ∃ q : ℚ, r.val venture key = Val.num q

lemma Report.numeric_empty : Report.empty.numeric := fun _ _ => ⟨0, rfl⟩

lemma Report.numeric_write (r : Report) (v : Nat) (k : String) (q : ℚ)
    (h : r.numeric) : (r.write v k (Val.num q)).numeric := by
  intro venture key
  by_cases hc : venture = v ∧ key = k
  · exact ⟨q, by simp [Report.write, hc]⟩
  · obtain ⟨a, ha⟩ := h venture key
    exact ⟨a, by simp [Report.write, hc, ha]⟩

lemma Report.numeric_addNum (r : Report) (h : r.numeric) (venture : Nat)
    (key : String) (q : ℚ) : ∃ a, Val.addNum (r.val venture key) q = Val.num a := by
  obtain ⟨a, ha⟩ := h venture key
  exact ⟨a + q, by rw [ha]; rfl⟩

lemma add_one_none_numeric (usage_type : UsageType)
    (ck cok tk : String) (price : ℚ) (r : Report) (x : VentureUsage)
    (h : r.numeric) :
    (add_one usage_type none ck cok tk price r x).numeric := by
  simp only [add_one]
  obtain ⟨a1, h1⟩ := Report.numeric_addNum r h x.pricing_venture ck x.usage
  rw [h1]
  have hr1 : (r.write x.pricing_venture ck (Val.num a1)).numeric :=
    Report.numeric_write r _ _ _ h
  obtain ⟨a2, h2⟩ := Report.numeric_addNum _ hr1 x.pricing_venture cok
    (x.usage * price)
  rw [h2]
  have hr2 : ((r.write x.pricing_venture ck (Val.num a1)).write
      x.pricing_venture cok (Val.num a2)).numeric :=
    Report.numeric_write _ _ _ _ hr1
  by_cases hbw : usage_type.by_warehouse = true
  · rw [if_pos (show usage_type.by_warehouse = true ∧ True from ⟨hbw, trivial⟩)]
    obtain ⟨a3, h3⟩ := Report.numeric_addNum _ hr2 x.pricing_venture tk
      (x.usage * price)
    rw [h3]
    exact Report.numeric_write _ _ _ _ hr2
  · rw [if_neg (show ¬ (usage_type.by_warehouse = true ∧ True) from
      fun hc => hbw hc.1)]
    exact hr2

lemma foldl_add_one_none_numeric (usage_type : UsageType)
    (ck cok tk : String) (price : ℚ) :
    ∀ (l : List VentureUsage) (r : Report), r.numeric →
      (l.foldl (add_one usage_type none ck cok tk price) r).numeric
  | [], r, h => h
  | x :: l, r, h => by
    rw [List.foldl_cons]
    exact foldl_add_one_none_numeric usage_type ck cok tk price l _
      (add_one_none_numeric usage_type ck cok tk price r x h)

lemma usage_pass_rest_none_numeric (env : ReportEnv) (usage_type : UsageType)
    (start «end» : Int) (forecast : Bool) (ventures : List Nat)
    (warehouse : Option Warehouse) (r : Report) (h : r.numeric) :
    (usage_pass_rest env usage_type start «end» forecast ventures none
      warehouse r).numeric := by
  simp only [usage_pass_rest]
  by_cases hrec : order_by_start (opt_warehouse_filter warehouse
      (overlap_filter start «end» usage_type.usageprice_set)) = []
  · rw [if_neg (by simpa using hrec)]
    simp only [add_usages_per_venture]
    exact foldl_add_one_none_numeric usage_type _ _ _ _ _ r h
  · rw [if_pos (by simpa using hrec)]
    generalize order_by_start (opt_warehouse_filter warehouse
      (overlap_filter start «end» usage_type.usageprice_set)) = recs
    induction recs generalizing r with
    | nil => exact h
    | cons up recs ih =>
      rw [List.foldl_cons]
      apply ih
      simp only [process_price, add_usages_per_venture]
      exact foldl_add_one_none_numeric usage_type _ _ _ _ _ r h

lemma usages_false_numeric (env : ReportEnv) (start «end» : Int)
    (ventures : List Nat) (usage_type : UsageType) (forecast : Bool) :
    (usages env start «end» ventures usage_type forecast false).numeric := by
  rw [usages, _get_usages_per_warehouse]
  generalize warehouses_considered env usage_type = whs
  have hstep : ∀ (wh : Option Warehouse) (r : Report), r.numeric →
      (usage_pass env usage_type start «end» forecast ventures false wh
        r).numeric := by
    intro wh r h
    have : usage_pass env usage_type start «end» forecast ventures false wh r =
        usage_pass_rest env usage_type start «end» forecast ventures none wh
          r := by
      rw [usage_pass, if_neg (by simp)]
    rw [this]
    exact usage_pass_rest_none_numeric env usage_type start «end» forecast
      ventures wh r h
  have haux : ∀ (whs' : List (Option Warehouse)) (r : Report), r.numeric →
      ((whs'.foldl (fun result warehouse =>
        usage_pass env usage_type start «end» forecast ventures false
          warehouse result) r)).numeric := by
    intro whs'
    induction whs' with
    | nil => intro r h; exact h
    | cons wh whs'' ih =>
      intro r h
      rw [List.foldl_cons]
      exact ih _ (hstep wh r h)
  exact haux whs Report.empty Report.numeric_empty

/-- C3: with `no_price_msg=False` every cost value of the mapping returned
by `usages` is a number, never a sentinel string; in particular for a
non-`by_warehouse` usage type with no price record overlapping the
range, usage counts are still aggregated over the whole range and the
cost is the number `0`. -/
theorem usages_values_numeric (env : ReportEnv) (start «end» : Int)
    (ventures : List Nat) (usage_type : UsageType) (forecast : Bool) :
    (∀ (venture : Nat) (key : String), ∃ q : ℚ,
      (usages env start «end» ventures usage_type forecast false).val venture
        key = Val.num q) ∧
    (usage_type.by_warehouse = false →
      overlap_filter start «end» usage_type.usageprice_set = [] →
      ∀ venture : Nat,
        (usages env start «end» ventures usage_type forecast false).val venture
          (cost_key_simple usage_type.id) = Val.num 0 ∧
        (usages env start «end» ventures usage_type forecast false).val venture
          (count_key_simple usage_type.id) =
          Val.num (venture_usage venture (env._get_usages_in_period_per_venture
            start «end» usage_type none ventures))) := by
  refine ⟨usages_false_numeric env start «end» ventures usage_type forecast, ?_⟩
  intro hbw hnone venture
  have hrun : usages env start «end» ventures usage_type forecast false =
      usage_pass_rest env usage_type start «end» forecast ventures none none
        Report.empty := by
    rw [usages, _get_usages_per_warehouse]
    have hwhs : warehouses_considered env usage_type = [none] := by
      simp [warehouses_considered, hbw]
    rw [hwhs, List.foldl_cons, List.foldl_nil, usage_pass, if_neg (by simp)]
  have hrec : overlapping_records usage_type start «end» none = [] := by
    simp [overlapping_records, opt_warehouse_filter, hnone]
  have hkeys : pass_keys usage_type none =
      (count_key_simple usage_type.id, cost_key_simple usage_type.id,
        total_cost_key usage_type.id) := by
    simp [pass_keys, hbw]
  constructor
  · have h1 := usage_pass_rest_val_cost_none env usage_type start «end»
      forecast ventures none Report.empty venture
    rw [pass_venture_cost, if_neg (by simp [hrec])] at h1
    rw [hrun]
    simpa [hkeys, Report.empty, Val.addNum] using h1
  · have h2 := usage_pass_rest_val_count env usage_type start «end»
      forecast ventures none none Report.empty venture
    rw [pass_venture_usage, if_neg (by simp [hrec])] at h2
    rw [hrun]
    simpa [hkeys, Report.empty, Val.addNum] using h2

/-- Witness for C3 at a concrete input. -/
theorem usages_values_numeric_witness :
    (ut_nop.by_warehouse = false ∧
      overlap_filter 0 1 ut_nop.usageprice_set = []) ∧
    ((usages env_w 0 1 [1] ut_nop false false).val 7
        (cost_key_simple ut_nop.id) = Val.num 0 ∧
      (usages env_w 0 1 [1] ut_nop false false).val 7
        (count_key_simple ut_nop.id) =
        Val.num (venture_usage 7 (env_w._get_usages_in_period_per_venture
          0 1 ut_nop none [1]))) :=
  ⟨⟨rfl, rfl⟩,
    (usages_values_numeric env_w 0 1 [1] ut_nop false).2 rfl rfl 7⟩

/-! ## Claim C6: keys placed by `usages` versus the `schema` keys -/

lemma Report.mem_write_keys {p : Nat × String} (r : Report) (v : Nat)
    (k : String) (x : Val) (h : p ∈ (r.write v k x).keys) :
    p ∈ r.keys ∨ p = (v, k) := by
  simp only [Report.write] at h
  by_cases hc : (v, k) ∈ r.keys
  · rw [if_pos hc] at h
    exact Or.inl h
  · rw [if_neg hc] at h
    rcases List.mem_append.mp h with h' | h'
    · exact Or.inl h'
    · exact Or.inr (by simpa using h')

lemma add_one_keys (usage_type : UsageType) (pu : Option String)
    (ck cok tk : String) (price : ℚ) (r : Report) (x : VentureUsage)
    {p : Nat × String}
    (h : p ∈ (add_one usage_type pu ck cok tk price r x).keys) :
    p ∈ r.keys ∨ p.2 = ck ∨ p.2 = cok ∨
      (usage_type.by_warehouse = true ∧ p.2 = tk) := by
  simp only [add_one] at h
  rcases pu with _ | msg
  · by_cases hbw : usage_type.by_warehouse = true
    · rw [if_pos (show usage_type.by_warehouse = true ∧ (none : Option String) = none from ⟨hbw, rfl⟩)] at h
      rcases Report.mem_write_keys _ _ _ _ h with h' | h'
      · rcases Report.mem_write_keys _ _ _ _ h' with h'' | h''
        · rcases Report.mem_write_keys _ _ _ _ h'' with h3 | h3
          · exact Or.inl h3
          · exact Or.inr (Or.inl (congrArg Prod.snd h3))
        · exact Or.inr (Or.inr (Or.inl (congrArg Prod.snd h'')))
      · exact Or.inr (Or.inr (Or.inr ⟨hbw, congrArg Prod.snd h'⟩))
    · rw [if_neg (fun hc => hbw hc.1)] at h
      rcases Report.mem_write_keys _ _ _ _ h with h' | h'
      · rcases Report.mem_write_keys _ _ _ _ h' with h'' | h''
        · exact Or.inl h''
        · exact Or.inr (Or.inl (congrArg Prod.snd h''))
      · exact Or.inr (Or.inr (Or.inl (congrArg Prod.snd h')))
  · rw [if_neg (fun hc => Option.noConfusion hc.2)] at h
    rcases Report.mem_write_keys _ _ _ _ h with h' | h'
    · rcases Report.mem_write_keys _ _ _ _ h' with h'' | h''
      · exact Or.inl h''
      · exact Or.inr (Or.inl (congrArg Prod.snd h''))
    · exact Or.inr (Or.inr (Or.inl (congrArg Prod.snd h')))

lemma foldl_add_one_keys (usage_type : UsageType) (pu : Option String)
    (ck cok tk : String) (price : ℚ) :
    ∀ (l : List VentureUsage) (r : Report) {p : Nat × String},
      p ∈ (l.foldl (add_one usage_type pu ck cok tk price) r).keys →
      p ∈ r.keys ∨ p.2 = ck ∨ p.2 = cok ∨
        (usage_type.by_warehouse = true ∧ p.2 = tk)
  | [], r, p, h => Or.inl h
  | x :: l, r, p, h => by
    rw [List.foldl_cons] at h
    rcases foldl_add_one_keys usage_type pu ck cok tk price l _ h with h' | h'
    · exact add_one_keys usage_type pu ck cok tk price r x h'
    · exact Or.inr h'

lemma usage_pass_rest_keys (env : ReportEnv) (usage_type : UsageType)
    (start «end» : Int) (forecast : Bool) (ventures : List Nat)
    (pu : Option String) (warehouse : Option Warehouse) (r : Report)
    {p : Nat × String}
    (h : p ∈ (usage_pass_rest env usage_type start «end» forecast ventures pu
      warehouse r).keys) :
    p ∈ r.keys ∨ p.2 = (pass_keys usage_type warehouse).1 ∨
      p.2 = (pass_keys usage_type warehouse).2.1 ∨
      (usage_type.by_warehouse = true ∧
        p.2 = (pass_keys usage_type warehouse).2.2) := by
  simp only [usage_pass_rest] at h
  by_cases hrec : order_by_start (opt_warehouse_filter warehouse
      (overlap_filter start «end» usage_type.usageprice_set)) = []
  · rw [if_neg (by simpa using hrec)] at h
    simp only [add_usages_per_venture] at h
    exact foldl_add_one_keys usage_type pu _ _ _ _ _ r h
  · rw [if_pos (by simpa using hrec)] at h
    revert h
    generalize order_by_start (opt_warehouse_filter warehouse
      (overlap_filter start «end» usage_type.usageprice_set)) = recs
    induction recs generalizing r with
    | nil => exact fun h => Or.inl h
    | cons up recs ih =>
      intro h
      rw [List.foldl_cons] at h
      rcases ih _ h with h' | h'
      · simp only [process_price, add_usages_per_venture] at h'
        exact foldl_add_one_keys usage_type pu _ _ _ _ _ r h'
      · exact Or.inr h'

lemma usages_keys (env : ReportEnv) (start «end» : Int) (ventures : List Nat)
    (usage_type : UsageType) (forecast no_price_msg : Bool) {p : Nat × String}
    (h : p ∈ (usages env start «end» ventures usage_type forecast
      no_price_msg).keys) :
    ∃ wh ∈ warehouses_considered env usage_type,
      p.2 = (pass_keys usage_type wh).1 ∨
      p.2 = (pass_keys usage_type wh).2.1 ∨
      (usage_type.by_warehouse = true ∧ p.2 = (pass_keys usage_type wh).2.2) := by
  rw [usages, _get_usages_per_warehouse] at h
  have haux : ∀ (whs : List (Option Warehouse)) (r : Report),
      p ∈ (whs.foldl (fun result warehouse =>
        usage_pass env usage_type start «end» forecast ventures no_price_msg
          warehouse result) r).keys →
      p ∈ r.keys ∨ ∃ wh ∈ whs,
        p.2 = (pass_keys usage_type wh).1 ∨
        p.2 = (pass_keys usage_type wh).2.1 ∨
        (usage_type.by_warehouse = true ∧
          p.2 = (pass_keys usage_type wh).2.2) := by
    intro whs
    induction whs with
    | nil => exact fun r h' => Or.inl h'
    | cons wh whs ih =>
      intro r h'
      rw [List.foldl_cons] at h'
      rcases ih _ h' with h'' | h''
      · rw [usage_pass] at h''
        rcases usage_pass_rest_keys env usage_type start «end» forecast
            ventures _ wh r h'' with h3 | h3
        · exact Or.inl h3
        · exact Or.inr ⟨wh, List.mem_cons_self wh whs, h3⟩
      · obtain ⟨wh', hwh', hk⟩ := h''
        exact Or.inr ⟨wh', List.mem_cons_of_mem wh hwh', hk⟩
  rcases haux (warehouses_considered env usage_type) Report.empty h with h' | h'
  · exact absurd h' (by simp [Report.empty])
  · exact h'

lemma od_set_fst_mem (d : List (String × SchemaEntry)) (k : String)
    (v : SchemaEntry) (k' : String) :
    k' ∈ (od_set d k v).map Prod.fst ↔ k' ∈ d.map Prod.fst ∨ k' = k := by
  rw [od_set]
  by_cases hc : d.any (fun p => p.1 == k) = true
  · rw [if_pos hc]
    have hmap : (d.map (fun p => if p.1 == k then (k, v) else p)).map Prod.fst =
        d.map Prod.fst := by
      rw [List.map_map]
      apply List.map_congr_left
      intro p _
      by_cases hp : p.1 == k
      · have : p.1 = k := by simpa using hp
        simp [hp, this]
      · have : ¬ (p.1 = k) := by simpa using hp
        simp [hp, this]
    rw [hmap]
    constructor
    · exact Or.inl
    · rintro (h | rfl)
      · exact h
      · rw [List.any_eq_true] at hc
        obtain ⟨p, hp, he⟩ := hc
        exact List.mem_map.mpr ⟨p, hp, by simpa using he⟩
  · rw [if_neg hc]
    simp [List.mem_map, List.mem_append]

lemma mem_schema_fold_keys (ut_id : Nat) (nm : String) :
    ∀ (whs : List Warehouse) (acc : List (String × SchemaEntry)) (k : String),
      (k ∈ acc.map Prod.fst ∨
        ∃ w ∈ whs, k = count_key_wh ut_id w.id ∨ k = cost_key_wh ut_id w.id) →
      k ∈ (whs.foldl (fun s warehouse =>
        od_set (od_set s (count_key_wh ut_id warehouse.id)
          { name := nm ++ " count (" ++ warehouse.name ++ ")" })
          (cost_key_wh ut_id warehouse.id)
          { name := nm ++ " cost (" ++ warehouse.name ++ ")", currency := true })
        acc).map Prod.fst
  | [], acc, k, h => by
    rcases h with h | ⟨w, hw, _⟩
    · simpa using h
    · exact absurd hw (List.not_mem_nil w)
  | hd :: tl, acc, k, h => by
    rw [List.foldl_cons]
    apply mem_schema_fold_keys ut_id nm tl _ k
    rcases h with h | ⟨w, hw, hk⟩
    · left
      rw [od_set_fst_mem, od_set_fst_mem]
      exact Or.inl (Or.inl h)
    · rcases List.mem_cons.mp hw with rfl | hw'
      · left
        rw [od_set_fst_mem, od_set_fst_mem]
        rcases hk with rfl | rfl
        · exact Or.inl (Or.inr rfl)
        · exact Or.inr rfl
      · exact Or.inr ⟨w, hw', hk⟩

/-- C6: every report-column identifier that `usages` can place in a
venture's inner mapping is a key of the mapping returned by `schema` for
the same usage type. -/
theorem usages_keys_in_schema (env : ReportEnv) (start «end» : Int)
    (ventures : List Nat) (usage_type : UsageType) (forecast no_price_msg : Bool)
    (venture : Nat) (key : String)
    (hmem : (venture, key) ∈ (usages env start «end» ventures usage_type
      forecast no_price_msg).keys) :
    key ∈ (schema env usage_type).map Prod.fst := by
  obtain ⟨wh, hwh, hk⟩ := usages_keys env start «end» ventures usage_type
    forecast no_price_msg hmem
  by_cases hbw : usage_type.by_warehouse = true
  · rw [warehouses_considered, if_pos hbw] at hwh
    obtain ⟨w, hw, rfl⟩ := List.mem_map.mp hwh
    have hpk : pass_keys usage_type (some w) =
        (count_key_wh usage_type.id w.id, cost_key_wh usage_type.id w.id,
          total_cost_key usage_type.id) := by
      simp [pass_keys, hbw]
    rw [hpk] at hk
    have hschema : schema env usage_type =
        od_set (env.get_warehouses.foldl (fun s warehouse =>
          od_set (od_set s (count_key_wh usage_type.id warehouse.id)
            { name := usage_type.name ++ " count (" ++ warehouse.name ++ ")" })
            (cost_key_wh usage_type.id warehouse.id)
            { name := usage_type.name ++ " cost (" ++ warehouse.name ++ ")"
              currency := true }) [])
          (total_cost_key usage_type.id)
          { name := usage_type.name ++ " total cost", currency := true
            total_cost := true } := by
      rw [schema, if_pos hbw]
    rw [hschema, od_set_fst_mem]
    rcases hk with hk | hk | hk
    · exact Or.inl (mem_schema_fold_keys usage_type.id usage_type.name
        env.get_warehouses [] key (Or.inr ⟨w, hw, Or.inl hk⟩))
    · exact Or.inl (mem_schema_fold_keys usage_type.id usage_type.name
        env.get_warehouses [] key (Or.inr ⟨w, hw, Or.inr hk⟩))
    · exact Or.inr hk.2
  · rw [warehouses_considered, if_neg hbw] at hwh
    have hwh' : wh = none := by simpa using hwh
    subst hwh'
    have hbw' : usage_type.by_warehouse = false := by
      cases h : usage_type.by_warehouse
      · rfl
      · exact absurd h hbw
    have hpk : pass_keys usage_type none =
        (count_key_simple usage_type.id, cost_key_simple usage_type.id,
          total_cost_key usage_type.id) := by
      simp [pass_keys, hbw']
    rw [hpk] at hk
    rw [schema, if_neg hbw]
    rcases hk with hk | hk | hk
    · have hkey : key = count_key_simple usage_type.id := hk
      simp [hkey]
    · have hkey : key = cost_key_simple usage_type.id := hk
      simp [hkey]
    · exact absurd hk.1 hbw

/-- Witness for C6 at a concrete input. -/
theorem usages_keys_in_schema_witness :
    (7, count_key_simple 5) ∈ (usages env_w 0 9 [1] ut_w false false).keys ∧
    count_key_simple 5 ∈ (schema env_w ut_w).map Prod.fst :=
  ⟨by decide,
    usages_keys_in_schema env_w 0 9 [1] ut_w false false 7
      (count_key_simple 5) (by decide)⟩

/-! ## Claim C2: `_incomplete_price` versus day coverage -/

/-- Follows claim C2's words: the days of the report range that one price
record covers, as a set (the record's validity range clipped to the
report range). -/
def clipSet (start «end» : Int) (up : UsagePrice) : Finset ℤ :=
  Finset.Icc (max start up.start) (min «end» up.«end»)

/-- Follows claim C2's words: the days of the report range covered by some
record of the list. -/
def coveredSet (start «end» : Int) (L : List UsagePrice) : Finset ℤ :=
  L.foldr (fun up acc => clipSet start «end» up ∪ acc) ∅

lemma mem_coveredSet (start «end» : Int) {d : ℤ} :
    ∀ (L : List UsagePrice), d ∈ coveredSet start «end» L ↔
      ∃ up ∈ L, d ∈ clipSet start «end» up
  | [] => by simp [coveredSet]
  | up :: L => by
    simp only [coveredSet, List.foldr_cons, Finset.mem_union]
    rw [show L.foldr (fun up acc => clipSet start «end» up ∪ acc) ∅ =
      coveredSet start «end» L from rfl, mem_coveredSet start «end» L]
    simp

lemma coveredSet_subset_Icc (start «end» : Int) (L : List UsagePrice) :
    coveredSet start «end» L ⊆ Finset.Icc start «end» := by
  intro d hd
  obtain ⟨up, _, hmem⟩ := (mem_coveredSet start «end» L).mp hd
  simp only [clipSet, Finset.mem_Icc] at hmem
  rw [Finset.mem_Icc]
  exact ⟨le_trans (le_max_left start up.start) hmem.1,
    le_trans hmem.2 (min_le_left «end» up.«end»)⟩

lemma disjoint_coveredSet (start «end» : Int) (A : Finset ℤ) :
    ∀ (L : List UsagePrice), (∀ b ∈ L, Disjoint A (clipSet start «end» b)) →
      Disjoint A (coveredSet start «end» L)
  | [], _ => by simp [coveredSet]
  | b :: L, h => by
    rw [show coveredSet start «end» (b :: L) =
      clipSet start «end» b ∪ coveredSet start «end» L from rfl]
    rw [Finset.disjoint_union_right]
    exact ⟨h b (List.mem_cons_self b L),
      disjoint_coveredSet start «end» A L
        (fun b' hb' => h b' (List.mem_cons_of_mem b hb'))⟩

lemma card_coveredSet (start «end» : Int) :
    ∀ (L : List UsagePrice),
      (∀ up ∈ L, max start up.start ≤ min «end» up.«end») →
      L.Pairwise (fun a b => Disjoint (clipSet start «end» a)
        (clipSet start «end» b)) →
      ((L.map (fun up => (min «end» up.«end» - max start up.start) + 1)).sum : ℤ) =
        ((coveredSet start «end» L).card : ℤ)
  | [], _, _ => by simp [coveredSet]
  | up :: L, hne, hdisj => by
    have hd : Disjoint (clipSet start «end» up) (coveredSet start «end» L) :=
      disjoint_coveredSet start «end» _ L
        (fun b hb => (List.pairwise_cons.mp hdisj).1 b hb)
    have hcup : coveredSet start «end» (up :: L) =
        clipSet start «end» up ∪ coveredSet start «end» L := rfl
    rw [List.map_cons, List.sum_cons, hcup]
    rw [Finset.card_union_of_disjoint hd]
    have hclip : ((clipSet start «end» up).card : ℤ) =
        (min «end» up.«end» - max start up.start) + 1 := by
      rw [clipSet, Int.card_Icc]
      have hle := hne up (List.mem_cons_self up L)
      rw [Int.toNat_of_nonneg (by omega)]
      ring
    have htail := card_coveredSet start «end» L
      (fun b hb => hne b (List.mem_cons_of_mem up hb))
      (List.pairwise_cons.mp hdisj).2
    push_cast at htail
    rw [Nat.cast_add, hclip, ← htail]

lemma day_covered_iff_mem (usage_type : UsageType) (start «end» : Int)
    (warehouse : Option Warehouse) (d : Int) (hd1 : start ≤ d) (hd2 : d ≤ «end») :
    day_covered usage_type start «end» warehouse d = true ↔
      d ∈ coveredSet start «end»
        (price_records_for usage_type start «end» warehouse) := by
  rw [day_covered, List.any_eq_true,
    mem_coveredSet start «end» (price_records_for usage_type start «end» warehouse)]
  constructor
  · rintro ⟨up, hup, hpred⟩
    have h' : up.start ≤ d ∧ d ≤ up.«end» := of_decide_eq_true hpred
    refine ⟨up, hup, ?_⟩
    simp only [clipSet, Finset.mem_Icc]
    exact ⟨max_le hd1 h'.1, le_min hd2 h'.2⟩
  · rintro ⟨up, hup, hmem⟩
    simp only [clipSet, Finset.mem_Icc] at hmem
    refine ⟨up, hup, decide_eq_true ?_⟩
    exact ⟨le_trans (le_max_right start up.start) hmem.1,
      le_trans hmem.2 (min_le_right «end» up.«end»)⟩

lemma coveredSet_eq_Icc_iff (usage_type : UsageType) (start «end» : Int)
    (warehouse : Option Warehouse) :
    coveredSet start «end» (price_records_for usage_type start «end» warehouse) =
        Finset.Icc start «end» ↔
      ∀ d : Int, start ≤ d → d ≤ «end» →
        day_covered usage_type start «end» warehouse d = true := by
  constructor
  · intro heq d h1 h2
    rw [day_covered_iff_mem usage_type start «end» warehouse d h1 h2, heq,
      Finset.mem_Icc]
    exact ⟨h1, h2⟩
  · intro hP
    apply Finset.Subset.antisymm (coveredSet_subset_Icc start «end» _)
    intro d hd
    rw [Finset.mem_Icc] at hd
    exact (day_covered_iff_mem usage_type start «end» warehouse d hd.1
      hd.2).mp (hP d hd.1 hd.2)

/-- C2 (amended): assuming the report range is non-empty and the
overlapping price records have non-empty, pairwise disjoint clipped
validity ranges, `_incomplete_price` returns `'No price'` exactly when
no price record of the usage type overlaps the range (restricted to the
warehouse as the source does), `None` exactly when every day of the
range is covered by a price record, and `'Incomplete price'` exactly
when records overlap but some day of the range is uncovered. -/
theorem incomplete_price_trichotomy (usage_type : UsageType)
    (start «end» : Int) (warehouse : Option Warehouse)
    (hse : start ≤ «end»)
    (hne : ∀ up ∈ price_records_for usage_type start «end» warehouse,
      max start up.start ≤ min «end» up.«end»)
    (hdisj : (price_records_for usage_type start «end» warehouse).Pairwise
      (fun a b => Disjoint (clipSet start «end» a) (clipSet start «end» b))) :
    (_incomplete_price usage_type start «end» warehouse = some "No price" ↔
      price_records_for usage_type start «end» warehouse = []) ∧
    (_incomplete_price usage_type start «end» warehouse = none ↔
      ∀ d : Int, start ≤ d → d ≤ «end» →
        day_covered usage_type start «end» warehouse d = true) ∧
    (_incomplete_price usage_type start «end» warehouse =
        some "Incomplete price" ↔
      (price_records_for usage_type start «end» warehouse ≠ [] ∧
        ¬ ∀ d : Int, start ≤ d → d ≤ «end» →
          day_covered usage_type start «end» warehouse d = true)) := by
  have hfold : (price_records_for usage_type start «end» warehouse).foldl
      (fun acc up => acc + ((min «end» up.«end» - max start up.start) + 1)) 0 =
      ((coveredSet start «end» (price_records_for usage_type start «end»
        warehouse)).card : ℤ) := by
    rw [foldl_add_map_sum
      (fun up : UsagePrice => (min «end» up.«end» - max start up.start) + 1),
      zero_add]
    exact card_coveredSet start «end» _ hne hdisj
  have hip : _incomplete_price usage_type start «end» warehouse =
      (if ((coveredSet start «end» (price_records_for usage_type start «end»
          warehouse)).card : ℤ) = 0 then some "No price"
        else if ((coveredSet start «end» (price_records_for usage_type start
          «end» warehouse)).card : ℤ) ≠ («end» - start) + 1 then
          some "Incomplete price"
        else none) := by
    simp only [_incomplete_price]
    rw [hfold]
  have hcardIcc : ((Finset.Icc start «end»).card : ℤ) = («end» - start) + 1 := by
    rw [Int.card_Icc, Int.toNat_of_nonneg (by omega)]
    ring
  have hE1 : ((coveredSet start «end» (price_records_for usage_type start
      «end» warehouse)).card : ℤ) = 0 ↔
      price_records_for usage_type start «end» warehouse = [] := by
    constructor
    · intro h0
      have hempty : coveredSet start «end» (price_records_for usage_type
          start «end» warehouse) = ∅ :=
        Finset.card_eq_zero.mp (by exact_mod_cast h0)
      cases hL : price_records_for usage_type start «end» warehouse with
      | nil => rfl
      | cons up L' =>
        have hmem : max start up.start ∈ clipSet start «end» up := by
          simp only [clipSet, Finset.mem_Icc]
          exact ⟨le_refl _, hne up (by rw [hL]; exact List.mem_cons_self _ _)⟩
        have hin : max start up.start ∈ coveredSet start «end»
            (price_records_for usage_type start «end» warehouse) := by
          rw [mem_coveredSet]
          exact ⟨up, by rw [hL]; exact List.mem_cons_self _ _, hmem⟩
        rw [hempty] at hin
        exact absurd hin (Finset.not_mem_empty _)
    · intro h
      rw [h]
      simp [coveredSet]
  have hE2 : ((coveredSet start «end» (price_records_for usage_type start
      «end» warehouse)).card : ℤ) = («end» - start) + 1 ↔
      ∀ d : Int, start ≤ d → d ≤ «end» →
        day_covered usage_type start «end» warehouse d = true := by
    rw [← coveredSet_eq_Icc_iff usage_type start «end» warehouse]
    constructor
    · intro hcd
      apply Finset.eq_of_subset_of_card_le (coveredSet_subset_Icc start «end» _)
      have : ((Finset.Icc start «end»).card : ℤ) ≤
          ((coveredSet start «end» (price_records_for usage_type start «end»
            warehouse)).card : ℤ) := by
        rw [hcardIcc, hcd]
      exact_mod_cast this
    · intro hP
      rw [hP, hcardIcc]
  rw [hip]
  by_cases h0 : ((coveredSet start «end» (price_records_for usage_type start
      «end» warehouse)).card : ℤ) = 0
  · rw [if_pos h0]
    have hnil := hE1.mp h0
    have hnotP : ¬ ∀ d : Int, start ≤ d → d ≤ «end» →
        day_covered usage_type start «end» warehouse d = true := by
      intro hP
      have hc := hP start (le_refl start) hse
      rw [day_covered, hnil] at hc
      simp at hc
    refine ⟨iff_of_true rfl hnil, iff_of_false (by simp) hnotP,
      iff_of_false (by simp) (fun hc => hc.1 hnil)⟩
  · rw [if_neg h0]
    by_cases htot : ((coveredSet start «end» (price_records_for usage_type
        start «end» warehouse)).card : ℤ) = («end» - start) + 1
    · rw [if_neg (by simpa using htot)]
      have hP := hE2.mp htot
      refine ⟨iff_of_false (by simp) (fun hnil => h0 (hE1.mpr hnil)),
        iff_of_true rfl hP,
        iff_of_false (by simp) (fun hc => hc.2 hP)⟩
    · rw [if_pos (by simpa using htot)]
      refine ⟨iff_of_false (by simp) (fun hnil => h0 (hE1.mpr hnil)),
        iff_of_false (by simp) (fun hP => htot (hE2.mpr hP)),
        iff_of_true rfl ⟨fun hnil => h0 (hE1.mpr hnil),
          fun hP => htot (hE2.mpr hP)⟩⟩

/-- A concrete price record covering days 0 and 1. -/
def up_c : UsagePrice :=
  { start := 0, «end» := 1, price := 1, forecast_price := 1, warehouse := none }

/-- A concrete usage type holding the same fully-covering price record
twice. -/
def ut_c : UsageType :=
  { id := 9, name := "net", by_warehouse := false, by_cost := false
    usageprice_set := [up_c, up_c] }

/-- Counterexample to C2 as stated: for the range `[0, 1]` and a usage type
with two identical records covering the whole range, every day of the
range is covered by a price record, yet `_incomplete_price` returns
`'Incomplete price'` rather than `None` (the day counts of overlapping
records are double-counted). -/
theorem incomplete_price_claim_counterexample :
    day_covered ut_c 0 1 none 0 = true ∧
    day_covered ut_c 0 1 none 1 = true ∧
    _incomplete_price ut_c 0 1 none = some "Incomplete price" := by
  refine ⟨by decide, by decide, by decide⟩

/-- Witness for the amended C2 at a concrete input. -/
theorem incomplete_price_trichotomy_witness :
    ((0 : Int) ≤ 9 ∧
      (∀ up ∈ price_records_for ut_w 0 9 none,
        max 0 up.start ≤ min 9 up.«end») ∧
      (price_records_for ut_w 0 9 none).Pairwise
        (fun a b => Disjoint (clipSet 0 9 a) (clipSet 0 9 b))) ∧
    ((_incomplete_price ut_w 0 9 none = some "No price" ↔
      price_records_for ut_w 0 9 none = []) ∧
    (_incomplete_price ut_w 0 9 none = none ↔
      ∀ d : Int, 0 ≤ d → d ≤ 9 → day_covered ut_w 0 9 none d = true) ∧
    (_incomplete_price ut_w 0 9 none = some "Incomplete price" ↔
      (price_records_for ut_w 0 9 none ≠ [] ∧
        ¬ ∀ d : Int, 0 ≤ d → d ≤ 9 →
          day_covered ut_w 0 9 none d = true))) :=
  ⟨⟨by decide, by decide, by decide⟩,
    incomplete_price_trichotomy ut_w 0 9 none (by decide) (by decide)
      (by decide)⟩

/-! ## Claim C8: rendering order of the schema -/

lemma od_set_not_mem (d : List (String × SchemaEntry)) (k : String)
    (v : SchemaEntry) (h : k ∉ d.map Prod.fst) : od_set d k v = d ++ [(k, v)] := by
  rw [od_set, if_neg]
  intro hc
  rw [List.any_eq_true] at hc
  obtain ⟨p, hp, he⟩ := hc
  exact h (List.mem_map.mpr ⟨p, hp, by simpa using he⟩)

lemma schema_fold_append (ut_id : Nat) (nm : String) :
    ∀ (whs : List Warehouse) (acc : List (String × SchemaEntry)),
      (∀ w ∈ whs, count_key_wh ut_id w.id ∉ acc.map Prod.fst ∧
        cost_key_wh ut_id w.id ∉ acc.map Prod.fst) →
      (whs.map Warehouse.id).Nodup →
      whs.foldl (fun s warehouse =>
        od_set (od_set s (count_key_wh ut_id warehouse.id)
          { name := nm ++ " count (" ++ warehouse.name ++ ")" })
          (cost_key_wh ut_id warehouse.id)
          { name := nm ++ " cost (" ++ warehouse.name ++ ")", currency := true })
        acc =
      acc ++ whs.flatMap (fun w =>
        [(count_key_wh ut_id w.id,
          { name := nm ++ " count (" ++ w.name ++ ")" }),
         (cost_key_wh ut_id w.id,
          { name := nm ++ " cost (" ++ w.name ++ ")", currency := true })])
  | [], acc, _, _ => by simp
  | hd :: tl, acc, hfresh, hnodup => by
    have hid : hd.id ∉ tl.map Warehouse.id := (List.nodup_cons.mp hnodup).1
    have h1 : od_set acc (count_key_wh ut_id hd.id)
        { name := nm ++ " count (" ++ hd.name ++ ")" } =
        acc ++ [(count_key_wh ut_id hd.id,
          { name := nm ++ " count (" ++ hd.name ++ ")" })] :=
      od_set_not_mem _ _ _ (hfresh hd (List.mem_cons_self hd tl)).1
    have h2 : od_set (acc ++ [(count_key_wh ut_id hd.id,
        { name := nm ++ " count (" ++ hd.name ++ ")" })])
        (cost_key_wh ut_id hd.id)
        { name := nm ++ " cost (" ++ hd.name ++ ")", currency := true } =
        acc ++ [(count_key_wh ut_id hd.id,
          { name := nm ++ " count (" ++ hd.name ++ ")" }),
          (cost_key_wh ut_id hd.id,
          { name := nm ++ " cost (" ++ hd.name ++ ")", currency := true })] := by
      rw [od_set_not_mem]
      · rw [List.append_assoc]
        rfl
      · rw [List.map_append]
        intro hc
        rcases List.mem_append.mp hc with hc' | hc'
        · exact (hfresh hd (List.mem_cons_self hd tl)).2 hc'
        · have : cost_key_wh ut_id hd.id = count_key_wh ut_id hd.id := by
            simpa using hc'
          exact count_key_wh_ne_cost_key_wh ut_id hd.id hd.id this.symm
    rw [List.foldl_cons, h1, h2]
    rw [schema_fold_append ut_id nm tl _ ?_ (List.nodup_cons.mp hnodup).2]
    · rw [List.flatMap_cons, List.append_assoc]
    · intro w hw
      have hwid : w.id ≠ hd.id := by
        intro he
        exact hid (List.mem_map.mpr ⟨w, hw, he⟩)
      constructor
      · rw [List.map_append]
        intro hc
        rcases List.mem_append.mp hc with hc' | hc'
        · exact (hfresh w (List.mem_cons_of_mem hd hw)).1 hc'
        · rcases (by simpa using hc' :
            count_key_wh ut_id w.id = count_key_wh ut_id hd.id ∨
              count_key_wh ut_id w.id = cost_key_wh ut_id hd.id) with h' | h'
          · exact hwid (count_key_wh_inj ut_id h')
          · exact count_key_wh_ne_cost_key_wh ut_id w.id hd.id h'
      · rw [List.map_append]
        intro hc
        rcases List.mem_append.mp hc with hc' | hc'
        · exact (hfresh w (List.mem_cons_of_mem hd hw)).2 hc'
        · rcases (by simpa using hc' :
            cost_key_wh ut_id w.id = count_key_wh ut_id hd.id ∨
              cost_key_wh ut_id w.id = cost_key_wh ut_id hd.id) with h' | h'
          · exact count_key_wh_ne_cost_key_wh ut_id hd.id w.id h'.symm
          · exact hwid (cost_key_wh_inj ut_id h')

/-- C8: `usages` returns the nested mapping built per venture and report
column by `_get_usages_per_warehouse`, and `schema` returns an ordered
mapping in rendering order: for `by_warehouse` usage types, for each
warehouse of `get_warehouses()` in order, a count column immediately
followed by a currency cost column, with the total-cost column last;
otherwise a count column followed by a currency cost column marked as
total cost. -/
theorem schema_render_order (env : ReportEnv) (usage_type : UsageType)
    (start «end» : Int) (ventures : List Nat) (forecast no_price_msg : Bool)
    (hids : (env.get_warehouses.map Warehouse.id).Nodup) :
    (usages env start «end» ventures usage_type forecast no_price_msg =
      _get_usages_per_warehouse env usage_type start «end» forecast ventures
        no_price_msg) ∧
    (usage_type.by_warehouse = true →
      schema env usage_type =
        env.get_warehouses.flatMap (fun w =>
          [(count_key_wh usage_type.id w.id,
            { name := usage_type.name ++ " count (" ++ w.name ++ ")" }),
           (cost_key_wh usage_type.id w.id,
            { name := usage_type.name ++ " cost (" ++ w.name ++ ")"
              currency := true })]) ++
        [(total_cost_key usage_type.id,
          { name := usage_type.name ++ " total cost", currency := true
            total_cost := true })]) ∧
    (usage_type.by_warehouse = false →
      schema env usage_type =
        [(count_key_simple usage_type.id,
          { name := usage_type.name ++ " count" }),
         (cost_key_simple usage_type.id,
          { name := usage_type.name ++ " cost", currency := true
            total_cost := true })]) := by
  refine ⟨rfl, ?_, ?_⟩
  · intro hbw
    rw [schema, if_pos hbw]
    rw [schema_fold_append usage_type.id usage_type.name env.get_warehouses []
      (by simp) hids]
    rw [od_set_not_mem]
    · rw [List.nil_append]
    · intro hc
      rw [List.nil_append, List.map_flatMap] at hc
      obtain ⟨w, hw, hkey⟩ := List.mem_flatMap.mp hc
      rcases (by simpa using hkey :
        total_cost_key usage_type.id = count_key_wh usage_type.id w.id ∨
          total_cost_key usage_type.id = cost_key_wh usage_type.id w.id) with
        h' | h'
      · exact count_key_wh_ne_total_cost_key usage_type.id w.id h'.symm
      · exact cost_key_wh_ne_total_cost_key usage_type.id w.id h'.symm
  · intro hbw
    rw [schema, if_neg (by simp [hbw])]

/-- Witness for C8 at a concrete input. -/
theorem schema_render_order_witness :
    (env_w.get_warehouses.map Warehouse.id).Nodup ∧
    ((ut_w.by_warehouse = false →
      schema env_w ut_w =
        [(count_key_simple ut_w.id, { name := ut_w.name ++ " count" }),
         (cost_key_simple ut_w.id,
          { name := ut_w.name ++ " cost", currency := true
            total_cost := true })])) :=
  ⟨by decide,
    (schema_render_order env_w ut_w 0 9 [1] false false (by decide)).2.2⟩

/-! ## Claim C9 -/

/-- C9: `usages`, `total_cost` and `schema` only read the stored records:
threading the visible store (warehouse table, usage-price table) through
each operation returns it unchanged, reflecting that every ORM call in
the source is a read (`filter`, `order_by`, iteration, truthiness
tests) and none is a write. -/
theorem report_ops_read_only (db : Db)
    (pfc : UsagePrice → Bool → Option Warehouse → ℚ)
    (tuip : Int → Int → UsageType → Option Warehouse → List Nat → ℚ)
    (uipv : Int → Int → UsageType → Option Warehouse → List Nat → List VentureUsage)
    (start «end» : Int) (ventures : List Nat) (ut_id : Nat) (name : String)
    (by_warehouse by_cost forecast no_price_msg : Bool) :
    (usages_db db pfc tuip uipv start «end» ventures ut_id name by_warehouse
      by_cost forecast no_price_msg).2 = db ∧
    (total_cost_db db pfc tuip uipv start «end» ventures ut_id name
      by_warehouse by_cost forecast).2 = db ∧
    (schema_db db pfc tuip uipv ut_id name by_warehouse by_cost).2 = db :=
  ⟨rfl, rfl, rfl⟩

/-! ## Claim C10 -/

/-- C10: `usages` and `total_cost` are deterministic: two runs with the
same arguments against the same stored records return equal results;
moreover each depends only on the parts of the environment it reads
(`usages` never calls `_get_total_usage_in_period`, `total_cost` never
calls `_get_usages_in_period_per_venture`). -/
theorem report_ops_deterministic (env₁ env₂ : ReportEnv) (start «end» : Int)
    (ventures : List Nat) (usage_type : UsageType) (forecast no_price_msg : Bool)
    (hwh : env₁.get_warehouses = env₂.get_warehouses)
    (hpfc : env₁._get_price_from_cost = env₂._get_price_from_cost) :
    (env₁._get_usages_in_period_per_venture =
        env₂._get_usages_in_period_per_venture →
      usages env₁ start «end» ventures usage_type forecast no_price_msg =
        usages env₂ start «end» ventures usage_type forecast no_price_msg) ∧
    (env₁._get_total_usage_in_period = env₂._get_total_usage_in_period →
      total_cost env₁ start «end» ventures usage_type forecast =
        total_cost env₂ start «end» ventures usage_type forecast) := by
  obtain ⟨w₁, p₁, t₁, u₁⟩ := env₁
  obtain ⟨w₂, p₂, t₂, u₂⟩ := env₂
  dsimp only at hwh hpfc
  subst hwh hpfc
  constructor
  · intro h
    dsimp only at h
    subst h
    rfl
  · intro h
    dsimp only at h
    subst h
    rfl

/-- Witness for C10 at a concrete input. -/
theorem report_ops_deterministic_witness :
    (env_w.get_warehouses = env_w.get_warehouses ∧
      env_w._get_price_from_cost = env_w._get_price_from_cost ∧
      env_w._get_usages_in_period_per_venture =
        env_w._get_usages_in_period_per_venture ∧
      env_w._get_total_usage_in_period = env_w._get_total_usage_in_period) ∧
    (usages env_w 0 9 [1] ut_w false false =
      usages env_w 0 9 [1] ut_w false false ∧
    total_cost env_w 0 9 [1] ut_w false =
      total_cost env_w 0 9 [1] ut_w false) :=
  ⟨⟨rfl, rfl, rfl, rfl⟩,
    (report_ops_deterministic env_w env_w 0 9 [1] ut_w false false rfl rfl).1
      rfl,
    (report_ops_deterministic env_w env_w 0 9 [1] ut_w false false rfl
      rfl).2 rfl⟩
